import Mathlib

/-
  Verification development for the edurouter model-routing control plane.
  The Rust sources (engine.rs, cache.rs, stickiness.rs, health.rs, types.rs)
  are shallowly embedded: machine integers become Nat, f32 becomes Rat,
  HashMaps become association lists, and the external crates (ahash, hmac,
  base64, serde_json, regex, the embedding provider) enter as explicit
  function parameters or deterministic stand-ins.
-/

namespace EduRouter

/-- Leaf JSON value for the opaque `params` / `overrides` / `metadata` bags
(serde_json::Value). The sources only read booleans, strings, numbers and one
string-to-string table (`metadata.headers`) out of these bags, so a
two-level non-recursive model suffices. -/
inductive JLeaf where
  | null : JLeaf
  | bool (b : Bool) : JLeaf
  | num (n : Int) : JLeaf
  | str (s : String) : JLeaf
  | table (fields : List (String × String)) : JLeaf
  deriving DecidableEq

/-- Top-level JSON value (serde_json::Value) for the opaque bags. -/
inductive Json where
  | null : Json
  | bool (b : Bool) : Json
  | num (n : Int) : Json
  | str (s : String) : Json
  | obj (fields : List (String × JLeaf)) : Json
  deriving DecidableEq

/-- Value::get(key) on an object: first field with the given key. -/
def Json.get : Json → String → Option JLeaf
  | .obj fields, key => (fields.find? (fun f => f.1 = key)).map (·.2)
  | _, _ => none

/-- Value::as_bool. -/
def JLeaf.asBool : JLeaf → Option Bool
  | .bool b => some b
  | _ => none

/-- Value::as_str. -/
def JLeaf.asStr : JLeaf → Option String
  | .str s => some s
  | _ => none

/-- Value::as_object, specialized to the string-to-string tables the source
reads (each value then extracted with as_str().unwrap_or_default()). -/
def JLeaf.asTable : JLeaf → Option (List (String × String))
  | .table fields => some fields
  | _ => none

inductive PrivacyMode where
  | featuresOnly | summary | full
  deriving DecidableEq

inductive ApiKind where
  | responses | chat
  deriving DecidableEq

inductive ContentLevel where
  | none | summary | full
  deriving DecidableEq

inductive UpstreamMode where
  | responses | chat
  deriving DecidableEq

inductive CacheStatus where
  | miss | hit | stale
  deriving DecidableEq

inductive ModelStatus where
  | healthy | degraded | offline
  deriving DecidableEq

structure Budget where
  amountMicro : Nat
  currency : String
  deriving DecidableEq

structure Estimates where
  promptTokens : Option Nat
  maxOutputTokens : Option Nat
  tokenizerId : Option String
  deriving DecidableEq

structure Targets where
  p95LatencyMs : Option Nat
  minTokensPerSec : Option Nat
  reliabilityTier : Option String
  deriving DecidableEq

structure Conversation where
  turns : Option Nat
  systemFingerprint : Option String
  historyFingerprint : Option String
  summary : Option String
  deriving DecidableEq

structure OrgCtx where
  tenant : Option String
  project : Option String
  role : Option String
  deriving DecidableEq

structure Geo where
  region : Option String
  deriving DecidableEq

structure ContentAttestation where
  included : ContentLevel
  deriving DecidableEq

structure ToolHint where
  name : String
  jsonSchemaHash : Option String
  deriving DecidableEq

structure RouteRequest where
  schemaVersion : String
  requestId : String
  aliasName : String
  api : ApiKind
  privacyMode : PrivacyMode
  contentAttestation : Option ContentAttestation
  caps : List String
  stream : Bool
  params : Option Json
  targets : Option Targets
  budget : Option Budget
  estimates : Option Estimates
  conversation : Option Conversation
  org : Option OrgCtx
  geo : Option Geo
  tools : Option (List ToolHint)
  overrides : Option Json
  deriving DecidableEq

structure PolicyWeights where
  cost : Rat
  latency : Rat
  health : Rat
  context : Rat
  tierBonus : Rat
  deriving DecidableEq

structure PolicyStickiness where
  windowMs : Nat
  maxTurns : Nat
  deriving DecidableEq

structure PolicyDefaults where
  costNormMicro : Rat
  latencyMs : Rat
  timeoutMs : Nat
  maxOutputTokens : Nat
  maxOverlayBytes : Nat
  stickiness : PolicyStickiness
  deriving DecidableEq

structure PolicyEscalations where
  tokenLenOver : Option Nat
  uncertaintyRegex : Option String
  scpiErrorPresent : Option Bool
  teacherBoostTier : Option String
  defaultTier : Option String
  fallbackTier : Option String
  deriving DecidableEq

structure PolicyAliasRule where
  candidates : List String
  requireCaps : List String
  allowedRegions : List String
  deriving DecidableEq

structure GovernanceBudgets where
  total : Option Nat
  l3Max : Option Nat
  deriving DecidableEq

structure GovernanceApprovals where
  requireForLevels : List String
  deriving DecidableEq

structure GovernanceEcho where
  budgets : GovernanceBudgets
  approvals : GovernanceApprovals
  deriving DecidableEq

structure PolicyDocument where
  id : String
  revision : String
  schemaVersion : String
  weights : PolicyWeights
  defaults : PolicyDefaults
  governance : GovernanceEcho
  escalations : PolicyEscalations
  aliases : List (String × PolicyAliasRule)
  overlayMap : List (String × List (String × String))
  overlayDefaults : List (String × String)
  deriving DecidableEq

structure CatalogModelCost where
  currency : String
  inputPerMillionMicro : Nat
  outputPerMillionMicro : Nat
  cachedPerMillionMicro : Option Nat
  deriving DecidableEq

structure CatalogModelCapabilities where
  modalities : List String
  contextTokens : Nat
  tools : Bool
  jsonMode : Bool
  promptCache : Bool
  structuredOutput : Bool
  deriving DecidableEq

structure CatalogModelSloRecent where
  p50Ms : Option Nat
  p95Ms : Option Nat
  errorRate : Option Rat
  tokensPerSec : Option Rat
  deriving DecidableEq

structure CatalogModelSlos where
  targetP95Ms : Nat
  recent : Option CatalogModelSloRecent
  deriving DecidableEq

structure CatalogModel where
  id : String
  provider : String
  region : List String
  capabilities : CatalogModelCapabilities
  cost : CatalogModelCost
  slos : CatalogModelSlos
  policyTags : List String
  status : Option String
  metadata : List (String × JLeaf)
  deriving DecidableEq

structure CatalogDocument where
  revision : String
  models : List CatalogModel
  deriving DecidableEq

/-- Association-list lookup used to embed HashMap::get. -/
def alget {α : Type} (l : List (String × α)) (key : String) : Option α :=
  (l.find? (fun p => p.1 = key)).map (·.2)

structure RouteFeedbackUsage where
  promptTokens : Nat
  completionTokens : Nat
  cachedTokens : Nat
  reasoningTokens : Nat
  deriving DecidableEq

structure RouteFeedback where
  routeId : String
  modelId : String
  success : Bool
  durationMs : Nat
  usage : Option RouteFeedbackUsage
  statusCode : Nat
  deriving DecidableEq

inductive RouterError where
  | unknownModel (msg : String)
  | unknownAlias (msg : String)
  | invalidApproval (msg : String)
  | invalidRequest (msg : String)
  | policyDeny (msg : String)
  | planning (msg : String)
  deriving DecidableEq

def RouterError.isInvalidApproval : RouterError → Bool
  | .invalidApproval _ => true
  | _ => false

/-! Deterministic 64-bit hash stand-in.  The source uses ahash::AHasher
(an external crate); any well-mixed deterministic u64 hasher is acceptable
per the spec, and no claim depends on the mixing function itself, only on
determinism, so a concrete polynomial hash mod 2^64 embeds it. -/

def U64 : Nat := 2 ^ 64

def stringBytes (s : String) : List Nat := s.toList.map Char.toNat

/-- Modelled from the spec: AHasher over a byte stream (external crate),
replaced by a deterministic polynomial hash mod 2^64. -/
def hashBytes (l : List Nat) : Nat :=
  l.foldl (fun h b => (h * 131 + b + 11) % U64) 5381

/-- engine.rs hash_string / hash_alias (both hash via AHasher). -/
def hashString (s : String) : Nat := hashBytes (stringBytes s)

/-- Mixing step for CacheKey::derive's sequence of hasher writes. -/
def mixU64 (h x : Nat) : Nat := (h * 1099511628211 + x + 7) % U64

def PrivacyMode.toNat : PrivacyMode → Nat
  | .featuresOnly => 0 | .summary => 1 | .full => 2

def ApiKind.toNat : ApiKind → Nat
  | .responses => 0 | .chat => 1

/-- cache.rs CacheKey::derive: hashes the fourteen inputs in fixed order. -/
def CacheKey.derive (policyRev : String) (aliasIdx capsMask : Nat)
    (jsonMode : Bool) (inBucket outBucket regionMask : Nat) (boost : Bool)
    (planTokenModel overlayHash : Nat) (privacy : PrivacyMode) (api : ApiKind)
    (freezeHash canonicalHash : Nat) : Nat :=
  let h := hashString policyRev
  let h := mixU64 h aliasIdx
  let h := mixU64 h capsMask
  let h := mixU64 h (if jsonMode then 1 else 0)
  let h := mixU64 h inBucket
  let h := mixU64 h outBucket
  let h := mixU64 h regionMask
  let h := mixU64 h (if boost then 1 else 0)
  let h := mixU64 h planTokenModel
  let h := mixU64 h overlayHash
  let h := mixU64 h privacy.toNat
  let h := mixU64 h api.toNat
  let h := mixU64 h freezeHash
  mixU64 h canonicalHash

/-! Character-level string helpers.  The Lean core String functions
(toLower, trim, ...) are implemented with byte positions and do not reduce
in the kernel; these structurally recursive equivalents embed the Rust
string operations instead. -/

/-- Rust str::to_lowercase / to_ascii_lowercase. -/
def lowerStr (s : String) : String := ⟨s.data.map Char.toLower⟩

/-- Rust str::to_ascii_uppercase. -/
def upperStr (s : String) : String := ⟨s.data.map Char.toUpper⟩

def isWsChar (c : Char) : Bool := c = ' ' ∨ c = '\t' ∨ c = '\n' ∨ c = '\r'

/-- Rust str::trim. -/
def trimStr (s : String) : String :=
  ⟨((s.data.dropWhile isWsChar).reverse.dropWhile isWsChar).reverse⟩

/-- Rust str::starts_with. -/
def startsWithStr (s p : String) : Bool := s.data.take p.data.length = p.data

/-- Drop the first n characters (ASCII prefixes only in our uses). -/
def dropChars (s : String) (n : Nat) : String := ⟨s.data.drop n⟩

/-- Rust String::len (UTF-8 byte length). -/
def strUtf8Len (s : String) : Nat := s.data.foldl (fun n c => n + c.utf8Size) 0

/-! Capability and region bitmasks (engine.rs bitflags). -/

def CapTEXT : Nat := 1
def CapVISION : Nat := 2
def CapTOOLS : Nat := 4
def CapJSON : Nat := 8
def CapSTRUCTURED : Nat := 16
def CapPROMPT_CACHE : Nat := 32

def RegGLOBAL : Nat := 1
def RegEU : Nat := 2
def RegUS : Nat := 4
def RegAPAC : Nat := 8
def RegEDGE : Nat := 16
def RegALL : Nat := 31

/-- bitflags contains: every bit of `m` is set in `self`. -/
def maskContains (self m : Nat) : Bool := self &&& m = m

/-- bitflags intersects: some common bit. -/
def maskIntersects (a b : Nat) : Bool := a &&& b ≠ 0

/-- engine.rs caps_from_strings. -/
def capsFromStrings (values : List String) : Nat :=
  values.foldl (fun flags value =>
    match lowerStr value with
    | "text" => flags ||| CapTEXT
    | "vision" => flags ||| CapVISION
    | "tools" => flags ||| CapTOOLS
    | "json" => flags ||| CapJSON
    | "json_mode" => flags ||| CapJSON
    | "structured" => flags ||| CapSTRUCTURED
    | "structured_output" => flags ||| CapSTRUCTURED
    | "prompt_cache" => flags ||| CapPROMPT_CACHE
    | _ => flags) 0

/-- engine.rs caps_from_request. -/
def capsFromRequest (req : RouteRequest) : Nat :=
  let flags := capsFromStrings req.caps
  let flags := if (req.tools.map (fun tools => !tools.isEmpty)).getD false
    then flags ||| CapTOOLS else flags
  let flags := if ((req.params.map (Json.get · "json_mode")).join.bind JLeaf.asBool).getD false
    then flags ||| CapJSON else flags
  flags ||| CapTEXT

/-- engine.rs region_from_str. -/
def regionFromStr (region : String) : Nat :=
  match lowerStr region with
  | "eu" => RegEU
  | "eu-west-1" => RegEU
  | "us" => RegUS
  | "us-east-1" => RegUS
  | "useast" => RegUS
  | "apac" => RegAPAC
  | "ap-southeast-1" => RegAPAC
  | "edge" => RegEDGE
  | _ => RegGLOBAL

/-- engine.rs region_from_request. -/
def regionFromRequest (req : RouteRequest) : Nat :=
  ((req.geo.bind (·.region)).map regionFromStr).getD RegALL

/-- engine.rs bucket_tokens: dyadic prompt/output token buckets. -/
def bucketTokens (tokens : Nat) : Nat :=
  if tokens ≤ 256 then 0
  else if tokens ≤ 512 then 1
  else if tokens ≤ 1024 then 2
  else if tokens ≤ 2048 then 3
  else if tokens ≤ 4096 then 4
  else if tokens ≤ 8192 then 5
  else if tokens ≤ 16384 then 6
  else 7

/-- engine.rs has_teacher_boost. -/
def hasTeacherBoost (req : RouteRequest) : Bool :=
  (((req.overrides.map (Json.get · "teacher_boost")).join).bind JLeaf.asBool).getD false

/-- engine.rs determine_content_usage. -/
def determineContentUsage (req : RouteRequest) : ContentLevel :=
  match req.contentAttestation with
  | some attestation => attestation.included
  | none =>
    match req.privacyMode with
    | .featuresOnly => .none
    | .summary => .summary
    | .full => .full

/-- engine.rs freeze_key_from_request. -/
def freezeKeyFromRequest (req : RouteRequest) (policyRev : String) : String :=
  ((((req.overrides.map (Json.get · "freeze_key")).join).bind JLeaf.asStr).map
    (fun s => s)).getD ("frz_" ++ policyRev)

/-- engine.rs determine_escalation: the escalation cascade, first match wins.
The compiled uncertainty regex (external regex crate) enters as an abstract
match predicate. -/
def determineEscalation (req : RouteRequest) (policy : PolicyDocument)
    (regex : Option (String → Bool)) (inTokens : Nat) (teacherBoost : Bool) :
    Option String × Option String :=
  let fallback := upperStr (policy.escalations.fallbackTier.getD "T3")
  let scpiCheck : Option String × Option String :=
    if policy.escalations.scpiErrorPresent.getD false
        ∧ (((req.overrides.map (Json.get · "scpi_error_present")).join).bind
            JLeaf.asBool).getD false
    then (some fallback, some "policy_lock")
    else (none, none)
  let regexCheck : Option String × Option String :=
    match regex, req.conversation.bind (·.summary) with
    | some re, some summary =>
      if re summary then (some fallback, some "uncertainty") else scpiCheck
    | _, _ => scpiCheck
  let lenCheck : Option String × Option String :=
    match policy.escalations.tokenLenOver with
    | some limit => if inTokens > limit then (some fallback, some "complexity") else regexCheck
    | none => regexCheck
  if teacherBoost then
    match policy.escalations.teacherBoostTier.orElse (fun _ => some fallback) with
    | some target => (some (upperStr target), some "teacher_boost")
    | none => lenCheck
  else lenCheck

/-- embedding.rs extract_summary: conversation.summary first, then the
canonical_summary / summary overrides, trimmed and non-empty. -/
def extractSummary (req : RouteRequest) : Option String :=
  let convo := ((req.conversation.bind (·.summary)).map trimStr).filter (· ≠ "")
  if convo.isSome then convo
  else
    ((((req.overrides.bind (fun ov =>
        (ov.get "canonical_summary").orElse (fun _ => ov.get "summary"))).bind
      JLeaf.asStr).map trimStr).filter (· ≠ ""))

structure CanonicalSelection where
  modelId : String
  canonicalIds : List String
  score : Rat
  deriving DecidableEq

/-- embedding.rs canonical_hash: hashes model_id then each canonical id. -/
def canonicalHashFn (sel : CanonicalSelection) : Nat :=
  hashBytes (stringBytes sel.modelId ++
    sel.canonicalIds.foldr (fun id acc => stringBytes id ++ acc) [])

/-! stickiness.rs: StickinessManager.  HMAC-SHA256, URL-safe base64 and the
serde_json claims codec are external crates; they enter as the function
fields of `StickyEnv`, and the theorems carry their defining round-trip
properties as hypotheses. -/

structure StickinessClaims where
  tokenId : String
  tenant : Option String
  project : Option String
  aliasName : String
  modelId : String
  expiresAt : Nat
  maxTurns : Nat
  turn : Nat
  deriving DecidableEq

structure StickyEnv where
  secret : List Nat
  mac : List Nat → List Nat → List Nat
  enc : List Nat → String
  dec : String → Option (List Nat)
  ser : StickinessClaims → List Nat
  deser : List Nat → Option StickinessClaims

/-- stickiness.rs sign_claims: payload || HMAC(secret, payload), base64. -/
def signClaims (e : StickyEnv) (claims : StickinessClaims) : String :=
  e.enc (e.ser claims ++ e.mac e.secret (e.ser claims))

/-- stickiness.rs issue: fresh token id, turn 0, expires_at = now + ttl. -/
def stickyIssue (e : StickyEnv) (now : Nat) (uuid : String)
    (tenant project : Option String) (aliasName modelId : String)
    (maxTurns ttlMs : Nat) : String × StickinessClaims :=
  let claims : StickinessClaims :=
    { tokenId := uuid, tenant, project, aliasName, modelId
      expiresAt := now + ttlMs, maxTurns, turn := 0 }
  (signClaims e claims, claims)

/-- stickiness.rs progress_turn: turn+1 saturating at 255 (u8), fresh token
id and expiry. -/
def stickyProgress (e : StickyEnv) (now : Nat) (uuid : String)
    (claims : StickinessClaims) (ttlMs : Nat) : String × StickinessClaims :=
  let next : StickinessClaims :=
    { claims with turn := min (claims.turn + 1) 255
                  expiresAt := now + ttlMs
                  tokenId := uuid }
  (signClaims e next, next)

/-- stickiness.rs verify: decode, split payload/32-byte tag, constant-time
HMAC check, parse claims, reject expired. -/
def stickyVerify (e : StickyEnv) (now : Nat) (token : String) :
    Except RouterError StickinessClaims :=
  match e.dec token with
  | none => .error (.invalidApproval "bad token encoding")
  | some raw =>
    if raw.length < 32 then .error (.invalidApproval "token too short")
    else
      let payload := raw.take (raw.length - 32)
      let sig := raw.drop (raw.length - 32)
      if e.mac e.secret payload ≠ sig then
        .error (.invalidApproval "signature mismatch")
      else
        match e.deser payload with
        | none => .error (.invalidApproval "invalid claims")
        | some claims =>
          if claims.expiresAt < now then .error (.invalidApproval "token expired")
          else .ok claims

/-! health.rs: HealthStore, per-model EWMA. -/

structure HealthStats where
  p50Ms : Rat
  p95Ms : Rat
  errRate : Rat
  tokensPerSec : Rat
  lastUpdate : Nat
  deriving DecidableEq

/-- health.rs Default for HealthStats (conservative priors). -/
def HealthStats.initial : HealthStats :=
  { p50Ms := 700, p95Ms := 2100, errRate := 1/100, tokensPerSec := 300
    lastUpdate := 0 }

/-- health.rs blend: EWMA step with clamped alpha. -/
def blend (prev new alpha : Rat) : Rat :=
  prev + (new - prev) * (min (max alpha 0) 1)

/-- health.rs HealthStore::update, on the single touched entry. -/
def updateEntry (entry : HealthStats) (fb : RouteFeedback) (now : Nat) :
    HealthStats :=
  let alpha : Rat := 1/5
  let latency : Rat := (fb.durationMs : Nat)
  let e1 := { entry with p50Ms := blend entry.p50Ms latency alpha }
  let e2 := { e1 with p95Ms := blend e1.p95Ms (latency * (13/10)) (alpha / 2) }
  let err : Rat := if fb.success then 0 else 1
  let e3 := { e2 with errRate := blend e2.errRate err (1/10) }
  let e4 :=
    match fb.usage with
    | some usage =>
      if fb.durationMs > 0 then
        let totalTokens : Rat := ((usage.promptTokens + usage.completionTokens : Nat) : Rat)
        let tps := totalTokens / ((fb.durationMs : Rat) / 1000)
        { e3 with tokensPerSec := blend e3.tokensPerSec tps (1/5) }
      else e3
    | none => e3
  { e4 with lastUpdate := now }

/-- The health store as a total map (DashMap entry().or_default() semantics:
an absent entry behaves as the default). -/
def HealthStore := String → HealthStats

def HealthStore.initial : HealthStore := fun _ => HealthStats.initial

/-- health.rs HealthStore::update at the store level. -/
def HealthStore.update (store : HealthStore) (fb : RouteFeedback) (now : Nat) :
    HealthStore :=
  fun m => if m = fb.modelId then updateEntry (store fb.modelId) fb now else store m

/-- health.rs HealthStore::snapshot. -/
def HealthStore.snapshot (store : HealthStore) (modelId : String) : HealthStats :=
  store modelId

/-! engine.rs compiled forms. -/

structure ModelPrice where
  inputMicroPerMillion : Nat
  outputMicroPerMillion : Nat
  cachedMicroPerMillion : Nat
  deriving DecidableEq

structure CompiledModel where
  id : String
  provider : String
  baseUrl : String
  mode : UpstreamMode
  authEnv : Option String
  headers : List (String × String)
  capabilities : Nat
  regions : Nat
  contextTokens : Nat
  prices : ModelPrice
  targetLatencyMs : Nat
  baseLatencyMs : Nat
  status : ModelStatus
  policyTags : List String
  deriving DecidableEq

structure CompiledCatalog where
  revision : String
  models : List CompiledModel
  index : List (String × Nat)
  raw : CatalogDocument
  deriving DecidableEq

structure CompiledAlias where
  candidates : List Nat
  requireCaps : Nat
  allowedRegions : Nat
  deriving DecidableEq

structure CompiledPolicy where
  doc : PolicyDocument
  aliasMap : List (String × CompiledAlias)
  escalationRegex : Option (String → Bool)

/-- engine.rs compile_catalog, inner loop over doc.models with their dense
indices. -/
def compileModels : List CatalogModel → Nat →
    Except RouterError (List CompiledModel × List (String × Nat))
  | [], _ => .ok ([], [])
  | model :: rest, idx =>
    match (alget model.metadata "base_url").bind JLeaf.asStr with
    | none => .error (.planning ("catalog model " ++ model.id ++ " missing metadata.base_url"))
    | some baseUrl =>
      let mode := lowerStr (((alget model.metadata "mode").bind JLeaf.asStr).getD "responses")
      let upstreamMode : UpstreamMode := if mode = "chat" then .chat else .responses
      let authEnv := (alget model.metadata "auth_env").bind JLeaf.asStr
      let headers := ((alget model.metadata "headers").bind JLeaf.asTable).getD []
      let capability := model.capabilities.modalities.foldl (fun c modality =>
        match lowerStr modality with
        | "text" => c ||| CapTEXT
        | "vision" => c ||| CapVISION
        | _ => c) 0
      let capability := if model.capabilities.tools then capability ||| CapTOOLS else capability
      let capability := if model.capabilities.jsonMode then capability ||| CapJSON else capability
      let capability := if model.capabilities.structuredOutput then capability ||| CapSTRUCTURED else capability
      let capability := if model.capabilities.promptCache then capability ||| CapPROMPT_CACHE else capability
      let regions := if model.region.isEmpty then RegGLOBAL
        else model.region.foldl (fun mask region => mask ||| regionFromStr region) 0
      let status : ModelStatus :=
        match model.status.map lowerStr with
        | some "degraded" => .degraded
        | some "offline" => .offline
        | some "drained" => .offline
        | _ => .healthy
      let targetLatencyMs := model.slos.targetP95Ms
      let baseLatencyMs := ((model.slos.recent.bind (·.p50Ms)).getD
        (model.slos.targetP95Ms * 2 / 5))
      let prices : ModelPrice :=
        { inputMicroPerMillion := model.cost.inputPerMillionMicro
          outputMicroPerMillion := model.cost.outputPerMillionMicro
          cachedMicroPerMillion :=
            model.cost.cachedPerMillionMicro.getD (model.cost.inputPerMillionMicro / 2) }
      let compiled : CompiledModel :=
        { id := model.id, provider := model.provider, baseUrl, mode := upstreamMode
          authEnv, headers, capabilities := capability, regions
          contextTokens := max model.capabilities.contextTokens 1024
          prices, targetLatencyMs, baseLatencyMs, status
          policyTags := model.policyTags }
      match compileModels rest (idx + 1) with
      | .error e => .error e
      | .ok (models, index) => .ok (compiled :: models, (model.id, idx) :: index)

/-- engine.rs compile_catalog. -/
def compileCatalog (doc : CatalogDocument) : Except RouterError CompiledCatalog :=
  match compileModels doc.models 0 with
  | .error e => .error e
  | .ok (models, index) => .ok { revision := doc.revision, models, index, raw := doc }

/-- engine.rs compile_policy.  Regex::new (external crate) enters as the
`regexCompile` parameter, with compile failure mapping to no regex (.ok()). -/
def compilePolicy (regexCompile : String → Option (String → Bool))
    (doc : PolicyDocument) (catalog : CompiledCatalog) :
    Except RouterError CompiledPolicy :=
  let aliasMap := doc.aliases.map (fun entry =>
    let rule := entry.2
    let candidates := rule.candidates.filterMap (fun modelId => alget catalog.index modelId)
    let requireCaps := capsFromStrings rule.requireCaps
    let allowedRegions := if rule.allowedRegions.isEmpty then RegALL
      else rule.allowedRegions.foldl (fun mask region => mask ||| regionFromStr region) 0
    (entry.1, CompiledAlias.mk candidates requireCaps allowedRegions))
  let escalationRegex := doc.escalations.uncertaintyRegex.bind regexCompile
  .ok { doc, aliasMap, escalationRegex }

/-! Plan (response) structures, types.rs. -/

structure Upstream where
  baseUrl : String
  mode : UpstreamMode
  modelId : String
  authEnv : Option String
  headers : List (String × String)
  deriving DecidableEq

structure Limits where
  maxInputTokens : Option Nat
  maxOutputTokens : Option Nat
  timeoutMs : Option Nat
  deriving DecidableEq

structure PromptOverlays where
  systemOverlay : Option String
  overlayFingerprint : Option String
  overlaySizeBytes : Option Nat
  maxOverlayBytes : Option Nat
  deriving DecidableEq

structure Hints where
  tier : Option String
  estCostMicro : Option Nat
  currency : Option String
  estLatencyMs : Option Nat
  provider : Option String
  deriving DecidableEq

structure Fallback where
  baseUrl : String
  mode : UpstreamMode
  modelId : String
  reason : Option String
  penalty : Option Rat
  deriving DecidableEq

structure CacheHints where
  ttlMs : Option Nat
  etag : Option String
  validUntil : Option String
  freezeKey : Option String
  deriving DecidableEq

structure Stickiness where
  planToken : Option String
  maxTurns : Option Nat
  expiresAt : Option String
  deriving DecidableEq

/-- Stickiness::default(): the empty stickiness block. -/
def Stickiness.empty : Stickiness := ⟨none, none, none⟩

structure PolicyInfo where
  revision : Option String
  id : Option String
  explain : Option String
  deriving DecidableEq

structure CanonicalContext where
  ids : List String
  model : Option String
  score : Option Rat
  deriving DecidableEq

structure RoutePlan where
  schemaVersion : String
  routeId : String
  upstream : Upstream
  limits : Limits
  promptOverlays : PromptOverlays
  hints : Hints
  fallbacks : List Fallback
  cache : CacheHints
  stickiness : Stickiness
  policy : PolicyInfo
  policyRev : String
  contentUsed : ContentLevel
  governanceEcho : GovernanceEcho
  canonical : Option CanonicalContext
  deriving DecidableEq

/-! cache.rs PlanCache.  The moka store is modelled as the partial map that
is observable at the instant of the call (TTL eviction and LRU are the
store's concern; an evicted key is simply absent). -/

structure CachedPlanEntry where
  plan : RoutePlan
  insertedAt : Nat
  validUntil : Option Nat
  routeReason : Option String
  deriving DecidableEq

structure CacheHit where
  plan : RoutePlan
  status : CacheStatus
  routeReason : Option String
  deriving DecidableEq

/-- cache.rs PlanCache::get: Hit unless past fresh_ttl or past valid_until,
in which case the entry is still returned as Stale; absent keys give none
(Miss).  `nowMono` is the monotonic clock (Instant), `nowWall` the wall
clock (Utc). -/
def planCacheGet (store : Nat → Option CachedPlanEntry) (freshTtl : Nat)
    (nowMono nowWall : Nat) (key : Nat) : Option CacheHit :=
  (store key).map (fun entry =>
    let status : CacheStatus := .hit
    let status := if nowMono - entry.insertedAt > freshTtl then .stale else status
    let status :=
      match entry.validUntil with
      | some validUntil => if validUntil ≤ nowWall then .stale else status
      | none => status
    { plan := entry.plan, status, routeReason := entry.routeReason })

/-- cache.rs PlanCache::insert (overwrites). -/
def planCacheInsert (store : Nat → Option CachedPlanEntry) (key : Nat)
    (entry : CachedPlanEntry) : Nat → Option CachedPlanEntry :=
  fun k => if k = key then some entry else store k

/-- cache.rs PlanCache::clear (invalidate_all). -/
def planCacheClear : Nat → Option CachedPlanEntry := fun _ => none

/-! engine.rs scoring. -/

structure CandidateRef where
  model : CompiledModel
  score : Rat
  estCostMicro : Nat
  estLatencyMs : Nat
  penalty : Rat
  deriving DecidableEq

structure ScoreFactors where
  estCostMicro : Nat
  estLatencyMs : Nat
  inTokens : Nat
  outTokens : Nat
  deriving DecidableEq

/-- f32::round (half away from zero) on a non-negative rational. -/
def roundQ (x : Rat) : Int := Int.floor (x + 1/2)

/-- engine.rs estimate_cost_micro. -/
def estimateCostMicro (model : CompiledModel) (inTokens outTokens : Nat)
    (usePromptCache : Bool) : Nat :=
  let cached : Nat := if usePromptCache then (roundQ ((inTokens : Rat) * (2/5))).toNat else 0
  let normal : Nat := inTokens - cached
  let cachedCost := cached * model.prices.cachedMicroPerMillion / 1000000
  let normalCost := normal * model.prices.inputMicroPerMillion / 1000000
  let outCost := outTokens * model.prices.outputMicroPerMillion / 1000000
  cachedCost + normalCost + outCost

/-- engine.rs estimate_latency. -/
def estimateLatency (model : CompiledModel) (health : HealthStats)
    (inTokens outTokens : Nat) : Nat :=
  let throughput := max health.tokensPerSec 60
  let genMs := ((inTokens + outTokens : Nat) : Rat) / throughput * 1000
  let base := max health.p50Ms (model.baseLatencyMs : Rat)
  let latency := base + genMs
  let uprange := ((max model.targetLatencyMs 1 : Nat) : Rat) * (3/2)
  (roundQ (min latency uprange)).toNat

/-- engine.rs compute_score. -/
def computeScore (model : CompiledModel) (health : HealthStats)
    (factors : ScoreFactors) (policy : PolicyDocument) (boost : Bool) : Rat :=
  let defaults := policy.defaults
  let weights := policy.weights
  let costRatio := min ((factors.estCostMicro : Rat) / defaults.costNormMicro) (3/2)
  let latencyRatio := min ((factors.estLatencyMs : Rat) / defaults.latencyMs) (3/2)
  let fitCost := 1 - costRatio
  let fitLatency := 1 - latencyRatio
  let fitHealth := min (max (1 - health.errRate * 5) 0) 1
  let fitContext := min ((model.contextTokens : Rat) /
    ((factors.inTokens + factors.outTokens + 32 : Nat) : Rat)) 1
  let score := weights.cost * fitCost + weights.latency * fitLatency
    + weights.health * fitHealth + weights.context * fitContext
  let hasBonus := boost ∨ model.policyTags.any (fun tag => lowerStr tag = "tier:t1")
  let score := if hasBonus then score + weights.tierBonus else score
  if model.status = .degraded then score - 1/20 else score

structure ScoreContext where
  req : RouteRequest
  aliasRule : CompiledAlias
  policy : PolicyDocument
  catalog : CompiledCatalog
  health : HealthStore
  capsMask : Nat
  inTokens : Nat
  outTokens : Nat
  regionMask : Nat
  boost : Bool
  forcedTier : Option String
  canonicalHint : Option CanonicalSelection

/-- The body of engine.rs score_candidates' loop for one model: the chain of
`continue` filters, then cost/latency estimation and scoring; none stands
for a filtered-out candidate. -/
def evalCandidate (ctx : ScoreContext) (model : CompiledModel) :
    Option CandidateRef :=
  if ¬ maskContains model.capabilities (ctx.capsMask ||| ctx.aliasRule.requireCaps) then none
  else if ¬ maskIntersects ctx.aliasRule.allowedRegions ctx.regionMask then none
  else if ¬ maskIntersects ctx.regionMask model.regions
      ∧ ¬ maskContains model.regions RegGLOBAL then none
  else if model.contextTokens < ctx.inTokens + ctx.outTokens then none
  else if model.status = .offline then none
  else if (match ctx.forcedTier with
    | some tag => ! model.policyTags.any (fun entry => lowerStr entry == lowerStr tag)
    | none => false : Bool) then none
  else
    let usePromptCache := maskContains model.capabilities CapPROMPT_CACHE
      ∧ (((ctx.req.conversation.bind (·.turns)).getD 0 > 0)
        ∨ ((ctx.req.overrides.map (Json.get · "plan_token")).join).isSome)
    let estCostMicro := estimateCostMicro model ctx.inTokens ctx.outTokens usePromptCache
    if (match ctx.req.budget with
      | some budget => decide (estCostMicro > budget.amountMicro)
      | none => false : Bool) then none
    else
      let healthSnapshot := ctx.health.snapshot model.id
      let estLatencyMs := estimateLatency model healthSnapshot ctx.inTokens ctx.outTokens
      if (match ctx.req.targets.bind (·.p95LatencyMs) with
        | some maxLatency => decide (estLatencyMs > maxLatency)
        | none => false : Bool) then none
      else
        let score := computeScore model healthSnapshot
          { estCostMicro, estLatencyMs, inTokens := ctx.inTokens, outTokens := ctx.outTokens }
          ctx.policy ctx.boost
        let score :=
          match ctx.canonicalHint with
          | some hint => if hint.modelId = model.id then score + hint.score else score
          | none => score
        some { model, score, estCostMicro, estLatencyMs
               penalty := if model.status = .degraded then 1/10 else 0 }

/-- engine.rs score_candidates' loop over the alias candidate indices. -/
def scoreLoop (ctx : ScoreContext) : List Nat → Except RouterError (List CandidateRef)
  | [] => .ok []
  | idx :: rest =>
    match ctx.catalog.models.get? idx with
    | none => .error (.unknownModel ("unknown model idx " ++ toString idx))
    | some model =>
      match scoreLoop ctx rest with
      | .error e => .error e
      | .ok tail =>
        match evalCandidate ctx model with
        | some cand => .ok (cand :: tail)
        | none => .ok tail

/-- Stable insertion step for the descending sort (a candidate goes before
the first strictly-lower-scored entry, after equal scores). -/
def insertByScore (c : CandidateRef) : List CandidateRef → List CandidateRef
  | [] => [c]
  | d :: rest => if d.score ≤ c.score then c :: d :: rest else d :: insertByScore c rest

/-- Stable sort by descending score (Rust sort_by with the reversed
partial_cmp comparator; ties keep encounter order). -/
def sortByScoreDesc (l : List CandidateRef) : List CandidateRef :=
  l.foldr insertByScore []

/-- engine.rs score_candidates: filter and score, then sort by descending
score (ties keep encounter order). -/
def scoreCandidates (ctx : ScoreContext) : Except RouterError (List CandidateRef) :=
  match scoreLoop ctx ctx.aliasRule.candidates with
  | .error e => .error e
  | .ok scored => .ok (sortByScoreDesc scored)

/-- engine.rs choose_primary: a surviving sticky match (same alias and
model) is preferred, otherwise the top-scored candidate. -/
def choosePrimary (candidates : List CandidateRef)
    (sticky : Option StickinessClaims) (aliasName : String) : Option CandidateRef :=
  match sticky with
  | some claims =>
    if claims.aliasName = aliasName then
      match candidates.find? (fun cand => cand.model.id = claims.modelId) with
      | some cand => some cand
      | none => candidates.head?
    else candidates.head?
  | none => candidates.head?

/-- engine.rs build_fallbacks: up to three next-best distinct models. -/
def buildFallbacks (candidates : List CandidateRef) (primary : CandidateRef) :
    List CandidateRef :=
  (candidates.filter (fun cand => cand.model.id ≠ primary.model.id)).take 3

/-- Modelled from the spec: SHA-256 hex fingerprint (external sha2 crate),
replaced by a deterministic stand-in rendering of the byte hash. -/
def sha256hex (s : String) : String := toString (hashBytes (stringBytes s))

/-- engine.rs resolve_overlay: overlay id from overlay_map[alias][role] or
overlay_defaults[role]; content fetched, size-bounded (hard deny) and
fingerprinted; a missing overlay file records missing:<id>. -/
def resolveOverlay (req : RouteRequest) (policy : PolicyDocument)
    (overlays : List (String × String)) (maxOverlayBytes : Nat) :
    Except RouterError PromptOverlays :=
  let role := (req.org.bind (·.role)).getD "default"
  let overlayId := ((alget policy.overlayMap req.aliasName).bind
      (fun m => alget m role)).orElse
    (fun _ => alget policy.overlayDefaults role)
  let block : PromptOverlays :=
    { systemOverlay := none, overlayFingerprint := none
      overlaySizeBytes := some 0, maxOverlayBytes := some maxOverlayBytes }
  match overlayId with
  | none => .ok block
  | some id =>
    match alget overlays id with
    | some content =>
      let size := strUtf8Len content
      if size > maxOverlayBytes then
        .error (.policyDeny ("overlay " ++ id ++ " exceeds max_overlay_bytes"))
      else
        .ok { block with
          systemOverlay := some content
          overlayFingerprint := some ("sha256:" ++ sha256hex content)
          overlaySizeBytes := some size }
    | none => .ok { block with overlayFingerprint := some ("missing:" ++ id) }

structure PlanAssembly where
  req : RouteRequest
  policy : PolicyDocument
  promptOverlays : PromptOverlays
  primary : CandidateRef
  fallbacks : List Fallback
  outTokens : Nat
  contentUsed : ContentLevel
  cacheTtlMs : Nat
  freezeKey : String
  catalogRevision : String
  canonical : Option CanonicalSelection
  routeUuid : String

/-- engine.rs materialize_plan: assemble the blueprint plan (stickiness is
left empty; it is attached later, to the response copy only). -/
def materializePlan (ctx : PlanAssembly) : Except RouterError RoutePlan :=
  let policyRevision := ctx.policy.revision
  let canonicalBlock := ctx.canonical.map (fun sel =>
    CanonicalContext.mk sel.canonicalIds (some sel.modelId) (some sel.score))
  .ok
    { schemaVersion := ctx.req.schemaVersion
      routeId := ctx.routeUuid
      upstream :=
        { baseUrl := ctx.primary.model.baseUrl
          mode := ctx.primary.model.mode
          modelId := ctx.primary.model.id
          authEnv := ctx.primary.model.authEnv
          headers := ctx.primary.model.headers }
      limits :=
        { maxInputTokens := some ctx.primary.model.contextTokens
          maxOutputTokens := some (min ctx.outTokens ctx.policy.defaults.maxOutputTokens)
          timeoutMs := some ctx.policy.defaults.timeoutMs }
      promptOverlays := ctx.promptOverlays
      hints :=
        { tier := (ctx.primary.model.policyTags.find?
            (fun tag => startsWithStr tag "tier:")).map (fun tag => dropChars tag 5)
          estCostMicro := some ctx.primary.estCostMicro
          currency := some ((ctx.req.budget.map (·.currency)).getD "USD")
          estLatencyMs := some ctx.primary.estLatencyMs
          provider := some ctx.primary.model.provider }
      fallbacks := ctx.fallbacks
      cache :=
        { ttlMs := some ctx.cacheTtlMs
          etag := some ("W/\"cat_" ++ ctx.catalogRevision ++ "@pol_" ++ policyRevision ++ "\"")
          validUntil := none
          freezeKey := some ctx.freezeKey }
      stickiness := Stickiness.empty
      policy :=
        { revision := some policyRevision
          id := some ctx.policy.id
          explain := some ("score=" ++ toString ctx.primary.score
            ++ " cost=" ++ toString ctx.primary.estCostMicro
            ++ " latency=" ++ toString ctx.primary.estLatencyMs ++ "ms") }
      policyRev := policyRevision
      contentUsed := ctx.contentUsed
      governanceEcho := ctx.policy.governance
      canonical := canonicalBlock }

/-- Stand-in rendering of DateTime::to_rfc3339 on the Nat wall clock. -/
def natToRfc3339 (n : Nat) : String := toString n

/-- engine.rs RouterEngine::attach_stickiness: disabled when max_turns or
window_ms is zero; progresses a matching unexhausted token, otherwise
issues a fresh one; writes only the plan's stickiness block and
cache.valid_until. -/
def attachStickiness (e : StickyEnv) (nowWall : Nat) (tokenUuid : String)
    (policy : PolicyDocument) (req : RouteRequest) (plan : RoutePlan)
    (existing : Option StickinessClaims) :
    Except RouterError (RoutePlan × Option StickinessClaims) :=
  if policy.defaults.stickiness.maxTurns = 0 ∨ policy.defaults.stickiness.windowMs = 0 then
    .ok ({ plan with stickiness := Stickiness.empty }, none)
  else
    let cfg := policy.defaults.stickiness
    let tenant := req.org.bind (·.tenant)
    let project := req.org.bind (·.project)
    let modelId := plan.upstream.modelId
    let filtered := existing.filter (fun claims =>
      claims.aliasName == req.aliasName && claims.modelId == modelId)
    let issued :=
      match filtered with
      | some claims =>
        if claims.turn + 1 < claims.maxTurns then
          stickyProgress e nowWall tokenUuid claims cfg.windowMs
        else
          stickyIssue e nowWall tokenUuid tenant project req.aliasName modelId
            cfg.maxTurns cfg.windowMs
      | none =>
        stickyIssue e nowWall tokenUuid tenant project req.aliasName modelId
          cfg.maxTurns cfg.windowMs
    .ok
      ({ plan with
          stickiness :=
            { planToken := some issued.1
              maxTurns := some cfg.maxTurns
              expiresAt := some (natToRfc3339 issued.2.expiresAt) }
          cache := { plan.cache with validUntil := some (natToRfc3339 issued.2.expiresAt) } },
        some issued.2)

/-! engine.rs RouterEngine::plan, single-request model.  The ambient state a
plan call snapshots (compiled policy/catalog, overlays, cache contents,
health, clocks, the embedding runtime and the fresh UUIDs it draws) is
bundled in PlanEnv. -/

structure PlanEnv where
  policy : CompiledPolicy
  catalog : CompiledCatalog
  overlays : List (String × String)
  cacheStore : Nat → Option CachedPlanEntry
  cacheFreshTtl : Nat
  cacheTtlMs : Nat
  health : HealthStore
  sticky : StickyEnv
  nowMono : Nat
  nowWall : Nat
  canonicalSelect : String → Option CanonicalSelection
  routeUuid : String
  tokenUuid : String

/-- The scoring-input block plan() extracts before the cache lookup,
including the derived cache fingerprint. -/
structure KeyParts where
  capsMask : Nat
  jsonMode : Bool
  inTokens : Nat
  outTokens : Nat
  regionMask : Nat
  boost : Bool
  stickyClaims : Option StickinessClaims
  planTokenModel : Nat
  contentUsed : ContentLevel
  freezeKey : String
  promptOverlays : PromptOverlays
  overlayHash : Nat
  forcedTier : Option String
  baseReason : Option String
  forcedTag : Option String
  canonicalMatch : Option CanonicalSelection
  cacheKey : Nat

/-- engine.rs plan()'s sticky-token verification: the plan_token override,
verified; a failed verification is logged and treated as no token. -/
def planTokenClaims (sticky : StickyEnv) (nowWall : Nat) (req : RouteRequest) :
    Option StickinessClaims :=
  ((((req.overrides.map (Json.get · "plan_token")).join).bind JLeaf.asStr)).bind
    (fun token => (stickyVerify sticky nowWall token).toOption)

/-- engine.rs plan()'s plan_token_model input to the cache key: the catalog
index of the sticky model, defaulting to 0 (unwrap_or_default). -/
def planTokenModelIdx (catalog : CompiledCatalog)
    (claims? : Option StickinessClaims) : Nat :=
  (claims?.bind (fun claims => alget catalog.index claims.modelId)).getD 0

/-- The prefix of engine.rs plan(): alias resolution, scoring-input
extraction, overlay resolution, escalation, canonical match, sticky
verification (a failed token is logged and treated as absent) and cache-key
derivation. -/
def deriveRequestKey (env : PlanEnv) (req : RouteRequest) :
    Except RouterError (CompiledAlias × KeyParts) :=
  match alget env.policy.aliasMap req.aliasName with
  | none => .error (.unknownAlias req.aliasName)
  | some aliasRule =>
    let capsMask := capsFromRequest req
    let jsonMode := (((req.params.map (Json.get · "json_mode")).join).bind JLeaf.asBool).getD false
    let inTokens := (req.estimates.bind (·.promptTokens)).getD 512
    let outTokens0 := (req.estimates.bind (·.maxOutputTokens)).getD
      env.policy.doc.defaults.maxOutputTokens
    let outTokens := if outTokens0 = 0 then 256 else outTokens0
    let regionMask := regionFromRequest req
    let boost := hasTeacherBoost req
    let stickyClaims := planTokenClaims env.sticky env.nowWall req
    let planTokenModel := planTokenModelIdx env.catalog stickyClaims
    let contentUsed := determineContentUsage req
    let freezeKey := freezeKeyFromRequest req env.policy.doc.revision
    match resolveOverlay req env.policy.doc env.overlays
        env.policy.doc.defaults.maxOverlayBytes with
    | .error e => .error e
    | .ok promptOverlays =>
      let overlayHash := hashString (promptOverlays.overlayFingerprint.getD "overlay:none")
      let escalation := determineEscalation req env.policy.doc
        env.policy.escalationRegex inTokens boost
      let forcedTier := escalation.1
      let forcedTag := forcedTier.map (fun tier => "tier:" ++ tier)
      let canonicalMatch := (extractSummary req).bind env.canonicalSelect
      let baseReason :=
        match canonicalMatch, escalation.2 with
        | some selection, none => some ("canonical:" ++ selection.modelId)
        | _, reason => reason
      let cacheKey := CacheKey.derive env.policy.doc.revision
        (hashString req.aliasName) capsMask jsonMode
        (bucketTokens inTokens) (bucketTokens outTokens) regionMask boost
        planTokenModel overlayHash req.privacyMode req.api
        (hashString freezeKey) ((canonicalMatch.map canonicalHashFn).getD 0)
      .ok (aliasRule,
        { capsMask, jsonMode, inTokens, outTokens, regionMask, boost
          stickyClaims, planTokenModel, contentUsed, freezeKey, promptOverlays
          overlayHash, forcedTier, baseReason, forcedTag, canonicalMatch, cacheKey })

structure PlanOutcome where
  plan : RoutePlan
  cacheStatus : CacheStatus
  policyRevision : String
  catalogRevision : String
  routeReason : Option String
  deriving DecidableEq

structure PlanResult where
  outcome : PlanOutcome
  inserted : Option (Nat × CachedPlanEntry)
  deriving DecidableEq

def mkScoreCtx (env : PlanEnv) (req : RouteRequest) (aliasRule : CompiledAlias)
    (parts : KeyParts) (forced : Option String) : ScoreContext :=
  { req, aliasRule, policy := env.policy.doc, catalog := env.catalog
    health := env.health, capsMask := parts.capsMask, inTokens := parts.inTokens
    outTokens := parts.outTokens, regionMask := parts.regionMask
    boost := parts.boost, forcedTier := forced, canonicalHint := parts.canonicalMatch }

/-- The tail of engine.rs plan()'s miss path: choose the primary, build
fallbacks, materialize the blueprint, attach stickiness to the response
copy, and record the cache insertion. -/
def finishPlan (env : PlanEnv) (req : RouteRequest) (parts : KeyParts)
    (candidates : List CandidateRef) (baseReason : Option String) :
    Except RouterError PlanResult :=
  match choosePrimary candidates parts.stickyClaims req.aliasName with
  | none => .error (.planning "no candidates after scoring")
  | some best =>
    let baseReason :=
      if (parts.stickyClaims.map (fun claims =>
          claims.aliasName == req.aliasName && claims.modelId == best.model.id)).getD false
      then some "policy_lock" else baseReason
    let fallbacks := (buildFallbacks candidates best).map (fun cand =>
      Fallback.mk cand.model.baseUrl cand.model.mode cand.model.id
        (some "alternate") (some cand.penalty))
    let catalogRevision := env.catalog.revision
    match materializePlan
        { req, policy := env.policy.doc, promptOverlays := parts.promptOverlays
          primary := best, fallbacks, outTokens := parts.outTokens
          contentUsed := parts.contentUsed, cacheTtlMs := env.cacheTtlMs
          freezeKey := parts.freezeKey, catalogRevision
          canonical := parts.canonicalMatch, routeUuid := env.routeUuid } with
    | .error e => .error e
    | .ok blueprint =>
      match attachStickiness env.sticky env.nowWall env.tokenUuid env.policy.doc
          req blueprint parts.stickyClaims with
      | .error e => .error e
      | .ok withSticky =>
        let validUntil := withSticky.2.map (·.expiresAt)
        let entry := CachedPlanEntry.mk blueprint env.nowMono validUntil baseReason
        .ok
          { outcome :=
              { plan := withSticky.1, cacheStatus := .miss
                policyRevision := env.policy.doc.revision, catalogRevision
                routeReason := baseReason }
            inserted := some (parts.cacheKey, entry) }

/-- engine.rs RouterEngine::plan. -/
def plan (env : PlanEnv) (req : RouteRequest) : Except RouterError PlanResult :=
  match deriveRequestKey env req with
  | .error e => .error e
  | .ok derived =>
    let aliasRule := derived.1
    let parts := derived.2
    match planCacheGet env.cacheStore env.cacheFreshTtl env.nowMono env.nowWall
        parts.cacheKey with
    | some hit =>
      match attachStickiness env.sticky env.nowWall env.tokenUuid env.policy.doc
          req hit.plan parts.stickyClaims with
      | .error e => .error e
      | .ok withSticky =>
        let effectiveReason :=
          if parts.stickyClaims.isSome then some "policy_lock" else hit.routeReason
        .ok
          { outcome :=
              { plan := withSticky.1, cacheStatus := hit.status
                policyRevision := env.policy.doc.revision
                catalogRevision := env.catalog.revision
                routeReason := effectiveReason }
            inserted := none }
    | none =>
      match scoreCandidates (mkScoreCtx env req aliasRule parts parts.forcedTag) with
      | .error e => .error e
      | .ok cand1 =>
        if cand1.isEmpty && parts.forcedTag.isSome then
          match scoreCandidates (mkScoreCtx env req aliasRule parts none) with
          | .error e => .error e
          | .ok cand2 => finishPlan env req parts cand2 none
        else finishPlan env req parts cand1 parts.baseReason

/-! engine.rs reload_policy / reload_catalog over an explicit engine state. -/

structure EngineState where
  policy : CompiledPolicy
  catalog : CompiledCatalog
  cacheStore : Nat → Option CachedPlanEntry

/-- engine.rs RouterEngine::reload_policy: compile against the current
catalog; on success swap the policy in and clear the plan cache, on failure
return the error with nothing mutated (the error propagates before any
store). -/
def reloadPolicy (regexCompile : String → Option (String → Bool))
    (st : EngineState) (doc : PolicyDocument) : EngineState × Option RouterError :=
  match compilePolicy regexCompile doc st.catalog with
  | .error e => (st, some e)
  | .ok compiled => ({ st with policy := compiled, cacheStore := planCacheClear }, none)

/-- engine.rs RouterEngine::reload_catalog: compile the catalog (failure
propagates before any store), swap it in, recompile the policy against the
new catalog, swap that in and clear the plan cache. -/
def reloadCatalog (regexCompile : String → Option (String → Bool))
    (st : EngineState) (doc : CatalogDocument) : EngineState × Option RouterError :=
  match compileCatalog doc with
  | .error e => (st, some e)
  | .ok compiledCat =>
    let st1 := { st with catalog := compiledCat }
    match compilePolicy regexCompile st1.policy.doc st1.catalog with
    | .error e => (st1, some e)
    | .ok compiledPol =>
      ({ st1 with policy := compiledPol, cacheStore := planCacheClear }, none)

/-- The escalation cascade as the spec words it: teacher_boost first
(forcing teacher_boost_tier, or fallback_tier when unset), then prompt
length over token_len_over, then the uncertainty regex against
conversation.summary, then the scpi policy flag together with the request
override; first match wins, otherwise nothing is forced. -/
def escalationSpec (req : RouteRequest) (policy : PolicyDocument)
    (regex : Option (String → Bool)) (inTokens : Nat) (teacherBoost : Bool) :
    Option String × Option String :=
  let fallback := upperStr (policy.escalations.fallbackTier.getD "T3")
  if teacherBoost then
    (some (upperStr (policy.escalations.teacherBoostTier.getD fallback)),
      some "teacher_boost")
  else if (match policy.escalations.tokenLenOver with
    | some limit => decide (inTokens > limit)
    | none => false : Bool) then
    (some fallback, some "complexity")
  else if (match regex, req.conversation.bind (·.summary) with
    | some re, some summary => re summary
    | _, _ => false : Bool) then
    (some fallback, some "uncertainty")
  else if policy.escalations.scpiErrorPresent.getD false
      ∧ (((req.overrides.map (Json.get · "scpi_error_present")).join).bind
          JLeaf.asBool).getD false then
    (some fallback, some "policy_lock")
  else (none, none)

/-- Health-entry invariant of claim C8. -/
def healthInv (h : HealthStats) : Prop :=
  0 ≤ h.errRate ∧ h.errRate ≤ 1 ∧ 0 < h.tokensPerSec

/-! Concrete fixtures used by the witness theorems: a one-model catalog, a
one-alias policy, and concrete instantiations of the external-crate
parameters (HMAC, base64, claims codec). -/

def tModel : CatalogModel :=
  { id := "m-cheap", provider := "acme", region := []
    capabilities :=
      { modalities := ["text"], contextTokens := 8192, tools := false
        jsonMode := false, promptCache := false, structuredOutput := false }
    cost :=
      { currency := "USD", inputPerMillionMicro := 1000
        outputPerMillionMicro := 2000, cachedPerMillionMicro := none }
    slos := { targetP95Ms := 1000, recent := none }
    policyTags := ["tier:T2"], status := none
    metadata := [("base_url", .str "http://x")] }

def tCatalogDoc : CatalogDocument := { revision := "c1", models := [tModel] }

/-- A catalog document whose model lacks metadata.base_url, so its compile
fails. -/
def tBadCatalogDoc : CatalogDocument :=
  { revision := "c2", models := [{ tModel with metadata := [] }] }

def tPolicyDoc : PolicyDocument :=
  { id := "pol", revision := "r1", schemaVersion := "1.1"
    weights := { cost := 1, latency := 1, health := 1, context := 1, tierBonus := 0 }
    defaults :=
      { costNormMicro := 1000, latencyMs := 1000, timeoutMs := 30000
        maxOutputTokens := 256, maxOverlayBytes := 4096
        stickiness := { windowMs := 0, maxTurns := 0 } }
    governance :=
      { budgets := { total := none, l3Max := none }
        approvals := { requireForLevels := [] } }
    escalations :=
      { tokenLenOver := none, uncertaintyRegex := none, scpiErrorPresent := none
        teacherBoostTier := none, defaultTier := none, fallbackTier := none }
    aliases := [("edu-general",
      { candidates := ["m-cheap"], requireCaps := [], allowedRegions := [] })]
    overlayMap := [], overlayDefaults := [] }

def tCompiledCatalog : CompiledCatalog :=
  (compileCatalog tCatalogDoc).toOption.getD
    { revision := "", models := [], index := [], raw := tCatalogDoc }

def tCompiledPolicy : CompiledPolicy :=
  match compilePolicy (fun _ => none) tPolicyDoc tCompiledCatalog with
  | .ok p => p
  | .error _ => { doc := tPolicyDoc, aliasMap := [], escalationRegex := none }

def tState : EngineState :=
  { policy := tCompiledPolicy, catalog := tCompiledCatalog
    cacheStore := planCacheClear }

/-- Concrete HMAC stand-in for witnesses: 32 bytes mixed from the secret
and a payload checksum. -/
def wMac (secret payload : List Nat) : List Nat :=
  (List.range 32).map (fun i =>
    (payload.foldl (fun acc b => acc + b + 3) (i + secret.length)) % 256)

/-- Concrete byte-list-to-token encoder for witnesses (bytes below 256 map
to distinct characters). -/
def wEnc (l : List Nat) : String :=
  String.mk (l.map (fun b => Char.ofNat (b % 256 + 256)))

/-- Concrete token decoder for witnesses, inverse of wEnc on byte lists. -/
def wDec (s : String) : Option (List Nat) :=
  some (s.toList.map (fun c => c.toNat - 256))

def wClaimsA : StickinessClaims :=
  { tokenId := "t-1", tenant := none, project := none
    aliasName := "edu-general", modelId := "m-cheap"
    expiresAt := 1200, maxTurns := 4, turn := 0 }

def wClaimsB : StickinessClaims :=
  { wClaimsA with tokenId := "t-2", turn := 1, expiresAt := 1300 }

/-- Concrete claims serializer for witnesses (injective on the claims the
witnesses use). -/
def wSer (c : StickinessClaims) : List Nat :=
  if c = wClaimsA then [0] else if c = wClaimsB then [1] else [2]

/-- Concrete claims parser for witnesses, inverse of wSer on its image. -/
def wDeser (l : List Nat) : Option StickinessClaims :=
  if l = [0] then some wClaimsA else if l = [1] then some wClaimsB else none

def wSticky : StickyEnv :=
  { secret := [9, 9, 9], mac := wMac, enc := wEnc, dec := wDec
    ser := wSer, deser := wDeser }

def tEnv : PlanEnv :=
  { policy := tCompiledPolicy, catalog := tCompiledCatalog, overlays := []
    cacheStore := planCacheClear, cacheFreshTtl := 60, cacheTtlMs := 60
    health := HealthStore.initial, sticky := wSticky, nowMono := 0, nowWall := 1000
    canonicalSelect := fun _ => none, routeUuid := "route-1", tokenUuid := "tok-1" }

def tReq : RouteRequest :=
  { schemaVersion := "1.1", requestId := "r1", aliasName := "edu-general"
    api := .responses, privacyMode := .featuresOnly, contentAttestation := none
    caps := [], stream := false, params := none, targets := none, budget := none
    estimates := none, conversation := none, org := none, geo := none
    tools := none, overrides := none }

/-- A cached plan literal for the C3 witness. -/
def tPlan0 : RoutePlan :=
  { schemaVersion := "1.1", routeId := "route-1"
    upstream :=
      { baseUrl := "http://x", mode := .responses, modelId := "m-cheap"
        authEnv := none, headers := [] }
    limits := { maxInputTokens := some 8192, maxOutputTokens := some 256, timeoutMs := some 30000 }
    promptOverlays :=
      { systemOverlay := none, overlayFingerprint := none
        overlaySizeBytes := some 0, maxOverlayBytes := some 4096 }
    hints :=
      { tier := some "T2", estCostMicro := some 0, currency := some "USD"
        estLatencyMs := some 1500, provider := some "acme" }
    fallbacks := []
    cache :=
      { ttlMs := some 60, etag := some "W/\"cat_c1@pol_r1\""
        validUntil := none, freezeKey := some "frz_r1" }
    stickiness := Stickiness.empty
    policy := { revision := some "r1", id := some "pol", explain := none }
    policyRev := "r1", contentUsed := .none
    governanceEcho :=
      { budgets := { total := none, l3Max := none }
        approvals := { requireForLevels := [] } }
    canonical := none }

/-- A request carrying a plan_token override that fails verification. -/
def tReqBadToken : RouteRequest :=
  { tReq with overrides := some (.obj [("plan_token", .str "!!!")]) }

/-- A valid token for wClaimsA under the concrete witness crypto. -/
def tTokenA : String := signClaims wSticky wClaimsA

def tOv1 : List (String × JLeaf) := [("plan_token", .str tTokenA)]

/-- The concrete plan() outcome on the fixture environment and request. -/
def tPlanResult : PlanResult :=
  (plan tEnv tReq).toOption.getD
    { outcome :=
        { plan := tPlan0, cacheStatus := .miss, policyRevision := ""
          catalogRevision := "", routeReason := none }
      inserted := none }

def tEntry : CachedPlanEntry :=
  { plan := tPlan0, insertedAt := 10, validUntil := some 500
    routeReason := some "complexity" }

def tStore : Nat → Option CachedPlanEntry :=
  fun k => if k = 42 then some tEntry else none

lemma healthInv_initial : healthInv HealthStats.initial := by
  refine ⟨by norm_num [HealthStats.initial], by norm_num [HealthStats.initial],
    by norm_num [HealthStats.initial]⟩

lemma updateEntry_errRate (e : HealthStats) (fb : RouteFeedback) (now : Nat) :
    (updateEntry e fb now).errRate =
      blend e.errRate (if fb.success then 0 else 1) (1/10) := by
  unfold updateEntry
  cases h : fb.usage
  · rfl
  · dsimp only
    split
    · rfl
    · rfl

lemma updateEntry_tps (e : HealthStats) (fb : RouteFeedback) (now : Nat) :
    (updateEntry e fb now).tokensPerSec = e.tokensPerSec
    ∨ ∃ usage, fb.usage = some usage ∧ 0 < fb.durationMs
        ∧ (updateEntry e fb now).tokensPerSec =
          blend e.tokensPerSec
            (((usage.promptTokens + usage.completionTokens : Nat) : Rat) /
              ((fb.durationMs : Rat) / 1000)) (1/5) := by
  unfold updateEntry
  cases h : fb.usage
  · left; rfl
  · dsimp only
    split
    · right
      exact ⟨_, rfl, by assumption, rfl⟩
    · left; rfl

lemma healthInv_updateEntry (e : HealthStats) (fb : RouteFeedback) (now : Nat)
    (h : healthInv e) : healthInv (updateEntry e fb now) := by
  obtain ⟨h0, h1, h2⟩ := h
  have halpha1 : min (max ((1:Rat)/10) 0) 1 = 1/10 := by norm_num
  have halpha2 : min (max ((1:Rat)/5) 0) 1 = 1/5 := by norm_num
  refine ⟨?_, ?_, ?_⟩
  · rw [updateEntry_errRate, blend, halpha1]
    split_ifs <;> linarith
  · rw [updateEntry_errRate, blend, halpha1]
    split_ifs <;> linarith
  · rcases updateEntry_tps e fb now with heq | ⟨usage, _, hdur, heq⟩
    · rw [heq]; exact h2
    · rw [heq, blend, halpha2]
      have hnn : (0 : Rat) ≤ ((usage.promptTokens + usage.completionTokens : Nat) : Rat) /
          ((fb.durationMs : Rat) / 1000) := by
        apply div_nonneg (by positivity)
        have hd : (0 : Rat) < (fb.durationMs : Rat) := by exact_mod_cast hdur
        positivity
      linarith

lemma healthInv_foldl (fbs : List (RouteFeedback × Nat)) :
    ∀ store : HealthStore, (∀ m, healthInv (store m)) →
      ∀ m, healthInv ((fbs.foldl (fun s p => s.update p.1 p.2) store) m) := by
  induction fbs with
  | nil => intro store h m; simpa using h m
  | cons fb rest ih =>
    intro store h m
    simp only [List.foldl_cons]
    refine ih _ (fun m' => ?_) m
    unfold HealthStore.update
    split
    · exact healthInv_updateEntry _ _ _ (h _)
    · exact h m'

end EduRouter

open EduRouter

/-- C8: starting from the default health entry, after any finite sequence of
HealthStore::update calls (each with its wall-clock instant), every stored
entry has err_rate in [0, 1] and tokens_per_sec strictly positive. -/
theorem c8_health_ewma_bounded (fbs : List (RouteFeedback × Nat)) (modelId : String) :
    0 ≤ ((fbs.foldl (fun s p => s.update p.1 p.2) HealthStore.initial) modelId).errRate
    ∧ ((fbs.foldl (fun s p => s.update p.1 p.2) HealthStore.initial) modelId).errRate ≤ 1
    ∧ 0 < ((fbs.foldl (fun s p => s.update p.1 p.2) HealthStore.initial) modelId).tokensPerSec :=
  healthInv_foldl fbs HealthStore.initial (fun _ => healthInv_initial) modelId

/-- C3: PlanCache::get returns nothing for an absent key; for a present
entry it returns the entry, with status Hit exactly when the elapsed
monotonic time since insertion is at most fresh_ttl and (no valid_until is
recorded or valid_until is strictly after the wall clock), and Stale in
every other present case. -/
theorem c3_cache_get_status (store : Nat → Option CachedPlanEntry)
    (freshTtl nowMono nowWall key : Nat) :
    (store key = none → planCacheGet store freshTtl nowMono nowWall key = none)
    ∧ (∀ entry, store key = some entry →
        planCacheGet store freshTtl nowMono nowWall key = some
          { plan := entry.plan
            status :=
              if nowMono - entry.insertedAt ≤ freshTtl
                  ∧ (entry.validUntil = none
                    ∨ ∃ v, entry.validUntil = some v ∧ nowWall < v)
                then .hit else .stale
            routeReason := entry.routeReason }) := by
  constructor
  · intro h
    unfold planCacheGet
    rw [h]
    rfl
  · intro entry h
    unfold planCacheGet
    rw [h]
    rcases hv : entry.validUntil with _ | v
    · by_cases hfresh : nowMono - entry.insertedAt > freshTtl
      · have hn : ¬ (nowMono - entry.insertedAt ≤ freshTtl) := by omega
        simp [hv, hfresh, hn]
      · have hy : nowMono - entry.insertedAt ≤ freshTtl := by omega
        simp [hv, hfresh, hy]
    · by_cases hfresh : nowMono - entry.insertedAt > freshTtl
      · have hn : ¬ (nowMono - entry.insertedAt ≤ freshTtl) := by omega
        by_cases hvu : v ≤ nowWall <;> simp [hv, hfresh, hn, hvu]
      · have hy : nowMono - entry.insertedAt ≤ freshTtl := by omega
        by_cases hvu : v ≤ nowWall
        · have hnw : ¬ (nowWall < v) := by omega
          simp [hv, hfresh, hvu, hnw]
        · have hw : nowWall < v := by omega
          simp [hv, hfresh, hvu, hy, hw]

/-- C7: on reload, a failed compile leaves the previous snapshots and the
plan cache untouched and returns the error; a successful compile swaps the
new snapshot in and clears the plan cache unconditionally.  Policy
compilation never fails, so reload_policy always swaps and clears; catalog
compilation can fail, and then nothing is mutated. -/
theorem c7_reload_discipline (regexCompile : String → Option (String → Bool))
    (st : EngineState) :
    (∀ doc : PolicyDocument, ∃ compiled,
        compilePolicy regexCompile doc st.catalog = .ok compiled
        ∧ reloadPolicy regexCompile st doc =
            ({ st with policy := compiled, cacheStore := planCacheClear }, none))
    ∧ (∀ (doc : CatalogDocument) (e : RouterError),
        (reloadCatalog regexCompile st doc).2 = some e →
          (reloadCatalog regexCompile st doc).1 = st ∧ compileCatalog doc = .error e)
    ∧ (∀ (doc : CatalogDocument) (cc : CompiledCatalog),
        compileCatalog doc = .ok cc → ∃ cp,
          reloadCatalog regexCompile st doc =
            ({ st with catalog := cc, policy := cp, cacheStore := planCacheClear }, none)) := by
  refine ⟨?_, ?_, ?_⟩
  · intro doc
    exact ⟨_, rfl, rfl⟩
  · intro doc e h
    unfold reloadCatalog at h ⊢
    rcases hc : compileCatalog doc with e' | cc
    · rw [hc] at h
      simp only [Option.some.injEq] at h
      subst h
      exact ⟨rfl, rfl⟩
    · rw [hc] at h
      simp [compilePolicy] at h
  · intro doc cc h
    unfold reloadCatalog
    rw [h]
    exact ⟨_, rfl⟩

/-- Witness for C3: a present fresh entry with a future valid_until comes
back as a Hit carrying the stored plan and route reason. -/
theorem c3_witness :
    planCacheGet tStore 60 30 100 42 =
      some { plan := tEntry.plan, status := .hit, routeReason := tEntry.routeReason } := by
  have h := (c3_cache_get_status tStore 60 30 100 42).2 tEntry (by rfl)
  rw [h, if_pos ⟨by norm_num [tEntry], Or.inr ⟨500, rfl, by norm_num⟩⟩]

/-- Witness for C7: reloading the concrete catalog document succeeds,
swaps the compiled catalog in and clears the plan cache. -/
theorem c7_witness :
    ∃ cp, reloadCatalog (fun _ => none) tState tCatalogDoc =
      ({ tState with catalog := tCompiledCatalog, policy := cp
                     cacheStore := planCacheClear }, none) :=
  (c7_reload_discipline (fun _ => none) tState).2.2 tCatalogDoc tCompiledCatalog (by rfl)

/-- C4: the derived 64-bit cache fingerprint is identical for two plan
requests that agree on every field except request_id and are processed
against the same snapshots (the same PlanEnv): request_id feeds none of
CacheKey::derive's inputs. -/
theorem c4_fingerprint_ignores_request_id (env : PlanEnv) (r1 r2 : RouteRequest)
    (h : r2 = { r1 with requestId := r2.requestId }) :
    (deriveRequestKey env r1).map (fun d => d.2.cacheKey) =
      (deriveRequestKey env r2).map (fun d => d.2.cacheKey) := by
  rw [h]
  cases r1
  rfl

/-- Witness for C4: two concrete requests differing only in request_id get
the same fingerprint. -/
theorem c4_witness :
    (deriveRequestKey tEnv tReq).map (fun d => d.2.cacheKey) =
      (deriveRequestKey tEnv { tReq with requestId := "r2" }).map (fun d => d.2.cacheKey) :=
  c4_fingerprint_ignores_request_id tEnv tReq { tReq with requestId := "r2" } (by rfl)

/-! Dissection lemmas for the plan() pipeline, shared by the plan-level
claims. -/

lemma materializePlan_ok (ctx : PlanAssembly) (p : RoutePlan)
    (h : materializePlan ctx = .ok p) :
    p.upstream.modelId = ctx.primary.model.id ∧ p.stickiness = Stickiness.empty := by
  cases h
  exact ⟨rfl, rfl⟩

lemma attachStickiness_frame (e : StickyEnv) (nowWall : Nat) (uuid : String)
    (policy : PolicyDocument) (req : RouteRequest) (p : RoutePlan)
    (ex : Option StickinessClaims) (res : RoutePlan × Option StickinessClaims)
    (h : attachStickiness e nowWall uuid policy req p ex = .ok res) :
    res.1 = { p with stickiness := res.1.stickiness
                     cache := { p.cache with validUntil := res.1.cache.validUntil } } := by
  unfold attachStickiness at h
  split at h
  · cases h; rfl
  · cases h; rfl

lemma attachStickiness_ne_error (e : StickyEnv) (nowWall : Nat) (uuid : String)
    (policy : PolicyDocument) (req : RouteRequest) (p : RoutePlan)
    (ex : Option StickinessClaims) (er : RouterError) :
    attachStickiness e nowWall uuid policy req p ex ≠ .error er := by
  unfold attachStickiness
  split <;> simp

lemma choosePrimary_mem (cands : List CandidateRef)
    (sticky : Option StickinessClaims) (aliasName : String) (c : CandidateRef)
    (h : choosePrimary cands sticky aliasName = some c) : c ∈ cands := by
  unfold choosePrimary at h
  rcases sticky with _ | claims
  · exact List.mem_of_mem_head? h
  · dsimp only at h
    by_cases ha : claims.aliasName = aliasName
    · rw [if_pos ha] at h
      rcases hf : cands.find? (fun cand => cand.model.id = claims.modelId) with _ | cand
      · rw [hf] at h
        exact List.mem_of_mem_head? h
      · rw [hf] at h
        cases h
        exact List.mem_of_find?_eq_some hf
    · rw [if_neg ha] at h
      exact List.mem_of_mem_head? h

lemma evalCandidate_props (ctx : ScoreContext) (model : CompiledModel)
    (c : CandidateRef) (h : evalCandidate ctx model = some c) :
    c.model = model ∧ model.status ≠ .offline
    ∧ ctx.inTokens + ctx.outTokens ≤ model.contextTokens := by
  unfold evalCandidate at h
  split at h
  · exact Option.noConfusion h
  split at h
  · exact Option.noConfusion h
  split at h
  · exact Option.noConfusion h
  split at h
  · exact Option.noConfusion h
  rename_i hctx
  split at h
  · exact Option.noConfusion h
  rename_i hoff
  split at h
  · exact Option.noConfusion h
  refine ⟨?_, hoff, by omega⟩
  rcases hb : ctx.req.budget with _ | budget <;> rw [hb] at h <;>
    rcases ht : ctx.req.targets.bind (·.p95LatencyMs) with _ | maxLat <;> rw [ht] at h <;>
      simp only [decide_eq_true_eq, Bool.false_eq_true, if_false] at h
  · simp only [Option.some.injEq] at h; subst h; rfl
  · split at h
    · exact Option.noConfusion h
    · simp only [Option.some.injEq] at h; subst h; rfl
  · split at h
    · exact Option.noConfusion h
    · simp only [Option.some.injEq] at h; subst h; rfl
  · split at h
    · exact Option.noConfusion h
    · split at h
      · exact Option.noConfusion h
      · simp only [Option.some.injEq] at h; subst h; rfl

lemma scoreLoop_mem (ctx : ScoreContext) (l : List Nat)
    (cands : List CandidateRef) (c : CandidateRef)
    (h : scoreLoop ctx l = .ok cands) (hc : c ∈ cands) :
    ∃ model ∈ ctx.catalog.models, evalCandidate ctx model = some c := by
  induction l generalizing cands with
  | nil =>
    unfold scoreLoop at h
    cases h
    simp at hc
  | cons idx rest ih =>
    unfold scoreLoop at h
    rcases hg : ctx.catalog.models.get? idx with _ | model
    · rw [hg] at h; exact Except.noConfusion h
    · rw [hg] at h
      dsimp only at h
      rcases hr : scoreLoop ctx rest with e | tail
      · rw [hr] at h; exact Except.noConfusion h
      · rw [hr] at h
        dsimp only at h
        rcases he : evalCandidate ctx model with _ | cand
        · rw [he] at h
          cases h
          exact ih _ hr hc
        · rw [he] at h
          cases h
          rcases List.mem_cons.mp hc with hcc | hct
          · subst hcc
            exact ⟨model, List.get?_mem hg, he⟩
          · exact ih _ hr hct

lemma mem_insertByScore (c a : CandidateRef) (l : List CandidateRef) :
    a ∈ insertByScore c l ↔ a = c ∨ a ∈ l := by
  induction l with
  | nil => simp [insertByScore]
  | cons d rest ih =>
    unfold insertByScore
    split
    · simp
    · simp [ih]
      tauto

lemma mem_sortByScoreDesc (a : CandidateRef) (l : List CandidateRef) :
    a ∈ sortByScoreDesc l ↔ a ∈ l := by
  induction l with
  | nil => simp [sortByScoreDesc]
  | cons d rest ih =>
    unfold sortByScoreDesc at ih ⊢
    simp only [List.foldr_cons, mem_insertByScore, ih, List.mem_cons]

lemma scoreCandidates_mem (ctx : ScoreContext) (cands : List CandidateRef)
    (c : CandidateRef) (h : scoreCandidates ctx = .ok cands) (hc : c ∈ cands) :
    ∃ model ∈ ctx.catalog.models, evalCandidate ctx model = some c := by
  unfold scoreCandidates at h
  rcases hl : scoreLoop ctx ctx.aliasRule.candidates with e | scored
  · rw [hl] at h; exact Except.noConfusion h
  · rw [hl] at h
    cases h
    exact scoreLoop_mem ctx _ scored c hl ((mem_sortByScoreDesc c scored).mp hc)

lemma planCacheGet_some_status (store : Nat → Option CachedPlanEntry)
    (freshTtl nowMono nowWall key : Nat) (hit : CacheHit)
    (h : planCacheGet store freshTtl nowMono nowWall key = some hit) :
    hit.status ≠ .miss := by
  unfold planCacheGet at h
  rcases hs : store key with _ | entry
  · rw [hs] at h; exact Option.noConfusion h
  · rw [hs] at h
    cases h
    dsimp only
    split <;> (try split) <;> (try split) <;> simp

lemma deriveRequestKey_tokens (env : PlanEnv) (req : RouteRequest)
    (aliasRule : CompiledAlias) (parts : KeyParts)
    (h : deriveRequestKey env req = .ok (aliasRule, parts)) :
    parts.inTokens = (req.estimates.bind (·.promptTokens)).getD 512
    ∧ parts.outTokens =
        (if (req.estimates.bind (·.maxOutputTokens)).getD
            env.policy.doc.defaults.maxOutputTokens = 0 then 256
          else (req.estimates.bind (·.maxOutputTokens)).getD
            env.policy.doc.defaults.maxOutputTokens) := by
  unfold deriveRequestKey at h
  rcases ha : alget env.policy.aliasMap req.aliasName with _ | rule
  · rw [ha] at h; exact Except.noConfusion h
  · rw [ha] at h
    rcases ho : resolveOverlay req env.policy.doc env.overlays
        env.policy.doc.defaults.maxOverlayBytes with e | po
    · rw [ho] at h; exact Except.noConfusion h
    · rw [ho] at h
      cases h
      exact ⟨rfl, rfl⟩

lemma finishPlan_structure (env : PlanEnv) (req : RouteRequest)
    (parts : KeyParts) (candidates : List CandidateRef)
    (baseReason : Option String) (result : PlanResult)
    (h : finishPlan env req parts candidates baseReason = .ok result) :
    ∃ best blueprint issued reason,
      choosePrimary candidates parts.stickyClaims req.aliasName = some best
      ∧ blueprint.upstream.modelId = best.model.id
      ∧ blueprint.stickiness = Stickiness.empty
      ∧ attachStickiness env.sticky env.nowWall env.tokenUuid env.policy.doc req
          blueprint parts.stickyClaims = .ok (result.outcome.plan, issued)
      ∧ result.outcome.cacheStatus = .miss
      ∧ result.inserted = some (parts.cacheKey,
          { plan := blueprint, insertedAt := env.nowMono
            validUntil := issued.map (·.expiresAt), routeReason := reason }) := by
  unfold finishPlan at h
  rcases hp : choosePrimary candidates parts.stickyClaims req.aliasName with _ | best
  · rw [hp] at h; exact Except.noConfusion h
  · rw [hp] at h
    simp only [materializePlan] at h
    try dsimp only at h
    rcases hat : attachStickiness env.sticky env.nowWall env.tokenUuid
        env.policy.doc req _ parts.stickyClaims with e | withSticky
    · rw [hat] at h; exact Except.noConfusion h
    · rw [hat] at h
      dsimp only at h
      cases h
      refine ⟨best, _, withSticky.2, _, rfl, ?_, ?_, ?_, rfl, rfl⟩
      · rfl
      · rfl
      · rw [hat]

lemma plan_miss_structure (env : PlanEnv) (req : RouteRequest)
    (result : PlanResult) (h : plan env req = .ok result)
    (hm : result.outcome.cacheStatus = .miss) :
    ∃ aliasRule parts forced candidates best blueprint issued reason,
      deriveRequestKey env req = .ok (aliasRule, parts)
      ∧ scoreCandidates (mkScoreCtx env req aliasRule parts forced) = .ok candidates
      ∧ best ∈ candidates
      ∧ blueprint.upstream.modelId = best.model.id
      ∧ blueprint.stickiness = Stickiness.empty
      ∧ attachStickiness env.sticky env.nowWall env.tokenUuid env.policy.doc req
          blueprint parts.stickyClaims = .ok (result.outcome.plan, issued)
      ∧ result.inserted = some (parts.cacheKey,
          { plan := blueprint, insertedAt := env.nowMono
            validUntil := issued.map (·.expiresAt), routeReason := reason }) := by
  unfold plan at h
  rcases hd : deriveRequestKey env req with e | derived
  · rw [hd] at h; exact Except.noConfusion h
  · rw [hd] at h
    dsimp only at h
    rcases hg : planCacheGet env.cacheStore env.cacheFreshTtl env.nowMono
        env.nowWall derived.2.cacheKey with _ | hit
    · rw [hg] at h
      dsimp only at h
      rcases hs : scoreCandidates (mkScoreCtx env req derived.1 derived.2
          derived.2.forcedTag) with e | cand1
      · rw [hs] at h; exact Except.noConfusion h
      · rw [hs] at h
        dsimp only at h
        split at h
        · rcases hs2 : scoreCandidates (mkScoreCtx env req derived.1 derived.2 none)
              with e | cand2
          · rw [hs2] at h; exact Except.noConfusion h
          · rw [hs2] at h
            dsimp only at h
            obtain ⟨best, blueprint, issued, reason, hp, hu, hst, hat, _, hins⟩ :=
              finishPlan_structure env req derived.2 cand2 none result h
            exact ⟨derived.1, derived.2, none, cand2, best, blueprint, issued, reason,
              by rw [← hd], hs2, choosePrimary_mem _ _ _ _ hp, hu, hst, hat, hins⟩
        · obtain ⟨best, blueprint, issued, reason, hp, hu, hst, hat, _, hins⟩ :=
            finishPlan_structure env req derived.2 cand1 derived.2.baseReason result h
          exact ⟨derived.1, derived.2, derived.2.forcedTag, cand1, best, blueprint,
            issued, reason, by rw [← hd], hs, choosePrimary_mem _ _ _ _ hp, hu, hst,
            hat, hins⟩
    · rw [hg] at h
      dsimp only at h
      rcases hat : attachStickiness env.sticky env.nowWall env.tokenUuid
          env.policy.doc req hit.plan derived.2.stickyClaims with e | withSticky
      · rw [hat] at h; exact Except.noConfusion h
      · rw [hat] at h
        dsimp only at h
        cases h
        exact absurd hm (planCacheGet_some_status _ _ _ _ _ _ hg)

lemma join_map_some {α β : Type} (f : α → Option β) (a : α) :
    (Option.map f (some a)).join = f a := rfl

lemma resolveOverlay_error (req : RouteRequest) (policy : PolicyDocument)
    (overlays : List (String × String)) (mb : Nat) (e : RouterError)
    (h : resolveOverlay req policy overlays mb = .error e) :
    ∃ msg, e = .policyDeny msg := by
  unfold resolveOverlay at h
  dsimp only at h
  split at h
  · exact Except.noConfusion h
  · split at h
    · split at h
      · cases h; exact ⟨_, rfl⟩
      · exact Except.noConfusion h
    · exact Except.noConfusion h

lemma scoreLoop_error (ctx : ScoreContext) (l : List Nat) (e : RouterError)
    (h : scoreLoop ctx l = .error e) : ∃ msg, e = .unknownModel msg := by
  induction l generalizing e with
  | nil =>
    unfold scoreLoop at h
    exact Except.noConfusion h
  | cons idx rest ih =>
    unfold scoreLoop at h
    rcases hg : ctx.catalog.models.get? idx with _ | model
    · rw [hg] at h; cases h; exact ⟨_, rfl⟩
    · rw [hg] at h
      dsimp only at h
      rcases hr : scoreLoop ctx rest with e2 | tail
      · rw [hr] at h
        cases h
        exact ih _ hr
      · rw [hr] at h
        dsimp only at h
        rcases he : evalCandidate ctx model with _ | cand <;> rw [he] at h <;>
          exact Except.noConfusion h

lemma scoreCandidates_error (ctx : ScoreContext) (e : RouterError)
    (h : scoreCandidates ctx = .error e) : ∃ msg, e = .unknownModel msg := by
  unfold scoreCandidates at h
  rcases hl : scoreLoop ctx ctx.aliasRule.candidates with e2 | scored
  · rw [hl] at h
    cases h
    exact scoreLoop_error _ _ _ hl
  · rw [hl] at h
    exact Except.noConfusion h

lemma deriveRequestKey_error (env : PlanEnv) (req : RouteRequest)
    (e : RouterError) (h : deriveRequestKey env req = .error e) :
    e.isInvalidApproval = false := by
  unfold deriveRequestKey at h
  rcases ha : alget env.policy.aliasMap req.aliasName with _ | rule
  · rw [ha] at h; cases h; rfl
  · rw [ha] at h
    dsimp only at h
    rcases ho : resolveOverlay req env.policy.doc env.overlays
        env.policy.doc.defaults.maxOverlayBytes with e2 | po
    · rw [ho] at h
      cases h
      obtain ⟨msg, rfl⟩ := resolveOverlay_error _ _ _ _ _ ho
      rfl
    · rw [ho] at h
      dsimp only at h
      exact Except.noConfusion h

lemma finishPlan_error (env : PlanEnv) (req : RouteRequest) (parts : KeyParts)
    (candidates : List CandidateRef) (baseReason : Option String)
    (e : RouterError) (h : finishPlan env req parts candidates baseReason = .error e) :
    ∃ msg, e = .planning msg := by
  unfold finishPlan at h
  rcases hp : choosePrimary candidates parts.stickyClaims req.aliasName with _ | best
  · rw [hp] at h; cases h; exact ⟨_, rfl⟩
  · rw [hp] at h
    simp only [materializePlan] at h
    try dsimp only at h
    split at h
    · rename_i e2 hat
      exact absurd hat (attachStickiness_ne_error _ _ _ _ _ _ _ _)
    · exact Except.noConfusion h

/-- C6 (amended): a plan_token override that fails verification is logged
and ignored, not surfaced: plan() never returns an INVALID_APPROVAL error
(its only failures are unknown alias, overlay policy deny, unknown model
index and empty scoring). -/
theorem c6_invalid_token_not_surfaced (env : PlanEnv) (req : RouteRequest)
    (e : RouterError) (h : plan env req = .error e) :
    e.isInvalidApproval = false := by
  unfold plan at h
  rcases hd : deriveRequestKey env req with e2 | derived
  · rw [hd] at h
    cases h
    exact deriveRequestKey_error _ _ _ hd
  · rw [hd] at h
    dsimp only at h
    rcases hg : planCacheGet env.cacheStore env.cacheFreshTtl env.nowMono
        env.nowWall derived.2.cacheKey with _ | hit
    · rw [hg] at h
      dsimp only at h
      rcases hs : scoreCandidates (mkScoreCtx env req derived.1 derived.2
          derived.2.forcedTag) with e2 | cand1
      · rw [hs] at h
        cases h
        obtain ⟨msg, rfl⟩ := scoreCandidates_error _ _ hs
        rfl
      · rw [hs] at h
        dsimp only at h
        split at h
        · rcases hs2 : scoreCandidates (mkScoreCtx env req derived.1 derived.2 none)
              with e2 | cand2
          · rw [hs2] at h
            cases h
            obtain ⟨msg, rfl⟩ := scoreCandidates_error _ _ hs2
            rfl
          · rw [hs2] at h
            dsimp only at h
            obtain ⟨msg, rfl⟩ := finishPlan_error _ _ _ _ _ _ h
            rfl
        · obtain ⟨msg, rfl⟩ := finishPlan_error _ _ _ _ _ _ h
          rfl
    · rw [hg] at h
      dsimp only at h
      rcases hat : attachStickiness env.sticky env.nowWall env.tokenUuid
          env.policy.doc req hit.plan derived.2.stickyClaims with e2 | ws
      · exact absurd hat (attachStickiness_ne_error _ _ _ _ _ _ _ _)
      · rw [hat] at h
        dsimp only at h
        exact Except.noConfusion h

/-- Counterexample for C6 as stated: a concrete /route/plan request whose
plan_token override fails verification (token too short after decoding),
yet the plan call succeeds instead of failing with INVALID_APPROVAL. -/
theorem c6_counterexample :
    stickyVerify wSticky tEnv.nowWall "!!!" =
      .error (.invalidApproval "token too short")
    ∧ (plan tEnv tReqBadToken).isOk = true :=
  ⟨rfl, rfl⟩

/-- Witness for C6 (amended): a failing plan call (unknown alias) carries a
non-INVALID_APPROVAL error. -/
theorem c6_witness : (RouterError.unknownAlias "nope").isInvalidApproval = false :=
  c6_invalid_token_not_surfaced tEnv { tReq with aliasName := "nope" }
    (.unknownAlias "nope") (by rfl)

lemma set_ne_of_ne_getD (l : List Nat) (i b : Nat) (h : i < l.length)
    (hb : b ≠ l.getD i 0) : l.set i b ≠ l := by
  intro he
  apply hb
  have h2 : (l.set i b).getD i 0 = b := by
    rw [List.getD_eq_getElem _ _ (by simpa using h)]
    exact List.getElem_set_self (by simpa using h)
  rw [he] at h2
  exact h2.symm

/-- C5: issue produces turn-0 claims signed over now+ttl; progress_turn
produces min(turn+1, 255) with a fresh id and expiry; verify before expiry
returns exactly the signed claims; verify on an expired token, or on a
token with any single payload or signature byte altered, returns
InvalidApproval.  The external HMAC, base64 codec and claims codec enter
through StickyEnv; the hypotheses are their defining round-trip properties,
and the payload-alteration case carries the HMAC second-preimage property
the spec's tamper guarantee rests on. -/
theorem c5_stickiness_token_lifecycle (e : StickyEnv)
    (now : Nat) (uuid : String) (tenant project : Option String)
    (al mid : String) (maxTurns ttl : Nat)
    (prior : StickinessClaims) (now2 : Nat) (uuid2 : String) (ttl2 : Nat) :
    (stickyIssue e now uuid tenant project al mid maxTurns ttl =
      (signClaims e { tokenId := uuid, tenant, project, aliasName := al
                      modelId := mid, expiresAt := now + ttl, maxTurns, turn := 0 },
        { tokenId := uuid, tenant, project, aliasName := al, modelId := mid
          expiresAt := now + ttl, maxTurns, turn := 0 }))
    ∧ (stickyProgress e now2 uuid2 prior ttl2 =
      (signClaims e { prior with turn := min (prior.turn + 1) 255
                                 expiresAt := now2 + ttl2, tokenId := uuid2 },
        { prior with turn := min (prior.turn + 1) 255
                     expiresAt := now2 + ttl2, tokenId := uuid2 }))
    ∧ (∀ (claims : StickinessClaims) (now' : Nat),
        (e.mac e.secret (e.ser claims)).length = 32 →
        e.dec (e.enc (e.ser claims ++ e.mac e.secret (e.ser claims))) =
          some (e.ser claims ++ e.mac e.secret (e.ser claims)) →
        e.deser (e.ser claims) = some claims →
        ¬ claims.expiresAt < now' →
        stickyVerify e now' (signClaims e claims) = .ok claims)
    ∧ (∀ (claims : StickinessClaims) (now' : Nat),
        (e.mac e.secret (e.ser claims)).length = 32 →
        e.dec (e.enc (e.ser claims ++ e.mac e.secret (e.ser claims))) =
          some (e.ser claims ++ e.mac e.secret (e.ser claims)) →
        e.deser (e.ser claims) = some claims →
        claims.expiresAt < now' →
        stickyVerify e now' (signClaims e claims) =
          .error (.invalidApproval "token expired"))
    ∧ (∀ (claims : StickinessClaims) (now' i b : Nat),
        (e.mac e.secret (e.ser claims)).length = 32 →
        e.dec (e.enc ((e.ser claims ++ e.mac e.secret (e.ser claims)).set i b)) =
          some ((e.ser claims ++ e.mac e.secret (e.ser claims)).set i b) →
        i < (e.ser claims ++ e.mac e.secret (e.ser claims)).length →
        b ≠ (e.ser claims ++ e.mac e.secret (e.ser claims)).getD i 0 →
        (i < (e.ser claims).length →
          e.mac e.secret ((e.ser claims).set i b) ≠ e.mac e.secret (e.ser claims)) →
        stickyVerify e now' (e.enc ((e.ser claims ++ e.mac e.secret (e.ser claims)).set i b)) =
          .error (.invalidApproval "signature mismatch")) := by
  refine ⟨rfl, rfl, ?_, ?_, ?_⟩
  · intro claims now' hlen hdec hdeser hfresh
    unfold stickyVerify signClaims
    rw [hdec]
    dsimp only
    rw [List.length_append, hlen]
    rw [if_neg (by omega)]
    have hn : (e.ser claims).length + 32 - 32 = (e.ser claims).length := by omega
    rw [hn, List.take_left, List.drop_left]
    rw [if_neg (fun hh => hh rfl)]
    rw [hdeser]
    dsimp only
    rw [if_neg hfresh]
  · intro claims now' hlen hdec hdeser hexp
    unfold stickyVerify signClaims
    rw [hdec]
    dsimp only
    rw [List.length_append, hlen]
    rw [if_neg (by omega)]
    have hn : (e.ser claims).length + 32 - 32 = (e.ser claims).length := by omega
    rw [hn, List.take_left, List.drop_left]
    rw [if_neg (fun hh => hh rfl)]
    rw [hdeser]
    dsimp only
    rw [if_pos hexp]
  · intro claims now' i b hlen hdec hi hb hnc
    unfold stickyVerify
    rw [hdec]
    dsimp only
    rw [List.length_set, List.length_append, hlen]
    rw [if_neg (by omega)]
    have hn : (e.ser claims).length + 32 - 32 = (e.ser claims).length := by omega
    rw [hn, List.set_append]
    by_cases hcase : i < (e.ser claims).length
    · rw [if_pos hcase]
      have hps : (e.ser claims).length = ((e.ser claims).set i b).length :=
        (List.length_set _ _ _).symm
      rw [hps, List.take_left, List.drop_left]
      rw [if_pos (hnc hcase)]
    · rw [if_neg hcase]
      rw [List.take_left, List.drop_left]
      have hj : i - (e.ser claims).length < (e.mac e.secret (e.ser claims)).length := by
        rw [List.length_append, hlen] at hi
        omega
      have hbj : b ≠ (e.mac e.secret (e.ser claims)).getD (i - (e.ser claims).length) 0 := by
        rw [List.getD_append_right _ _ _ _ (by omega)] at hb
        exact hb
      have hne : (e.mac e.secret (e.ser claims)).set (i - (e.ser claims).length) b ≠
          e.mac e.secret (e.ser claims) :=
        set_ne_of_ne_getD _ _ _ hj hbj
      rw [if_pos (fun hh => hne hh.symm)]

/-- Witness for C5, on the concrete crypto stand-ins: the issued fixture
claims round-trip through verify, an expired check rejects, and altering
byte 0 (payload) or byte 10 (signature) of the token blob rejects with a
signature mismatch. -/
theorem c5_witness :
    (stickyIssue wSticky 1000 "t-1" none none "edu-general" "m-cheap" 4 200).2 = wClaimsA
    ∧ (stickyProgress wSticky 1100 "t-2" wClaimsA 200).2 = wClaimsB
    ∧ stickyVerify wSticky 1000 (signClaims wSticky wClaimsA) = .ok wClaimsA
    ∧ stickyVerify wSticky 2000 (signClaims wSticky wClaimsA) =
        .error (.invalidApproval "token expired")
    ∧ stickyVerify wSticky 1000
        (wSticky.enc ((wSticky.ser wClaimsA ++
          wSticky.mac wSticky.secret (wSticky.ser wClaimsA)).set 0 5)) =
        .error (.invalidApproval "signature mismatch")
    ∧ stickyVerify wSticky 1000
        (wSticky.enc ((wSticky.ser wClaimsA ++
          wSticky.mac wSticky.secret (wSticky.ser wClaimsA)).set 10 7)) =
        .error (.invalidApproval "signature mismatch") := by
  have T := c5_stickiness_token_lifecycle wSticky 1000 "t-1" none none
    "edu-general" "m-cheap" 4 200 wClaimsA 1100 "t-2" 200
  refine ⟨?_, ?_, ?_, ?_, ?_, ?_⟩
  · rw [T.1]
    rfl
  · rw [T.2.1]
    rfl
  · exact T.2.2.1 wClaimsA 1000 (by decide) (by decide) (by decide) (by decide)
  · exact T.2.2.2.1 wClaimsA 2000 (by decide) (by decide) (by decide) (by decide)
  · exact T.2.2.2.2 wClaimsA 1000 0 5 (by decide) (by decide) (by decide)
      (by decide) (by decide)
  · exact T.2.2.2.2 wClaimsA 1000 10 7 (by decide) (by decide) (by decide)
      (by decide) (by decide)

/-- C10: a valid plan_token whose claims.model_id is absent from the
catalog index, or resolves to index 0, yields the same cache fingerprint as
the otherwise-identical request carrying no plan_token: the
sticky_model_index input defaults to 0 in all three cases. -/
theorem c10_unknown_sticky_model_shares_fingerprint (env : PlanEnv)
    (r1 : RouteRequest) (ov1 ov2 : List (String × JLeaf)) (tok : String)
    (claims : StickinessClaims)
    (h1 : r1.overrides = some (.obj ov1))
    (htok : Json.get (.obj ov1) "plan_token" = some (.str tok))
    (hver : stickyVerify env.sticky env.nowWall tok = .ok claims)
    (hidx : alget env.catalog.index claims.modelId = none
            ∨ alget env.catalog.index claims.modelId = some 0)
    (hnone : Json.get (.obj ov2) "plan_token" = none)
    (hsame : ∀ k, k ≠ "plan_token" → Json.get (.obj ov2) k = Json.get (.obj ov1) k) :
    (deriveRequestKey env r1).map (fun d => d.2.cacheKey) =
      (deriveRequestKey env { r1 with overrides := some (.obj ov2) }).map
        (fun d => d.2.cacheKey) := by
  have hcaps : capsFromRequest { r1 with overrides := some (.obj ov2) } =
      capsFromRequest r1 := by
    cases r1; rfl
  have hreg : regionFromRequest { r1 with overrides := some (.obj ov2) } =
      regionFromRequest r1 := by
    cases r1; rfl
  have hcu : determineContentUsage { r1 with overrides := some (.obj ov2) } =
      determineContentUsage r1 := by
    cases r1; rfl
  have hov : resolveOverlay { r1 with overrides := some (.obj ov2) }
        env.policy.doc env.overlays env.policy.doc.defaults.maxOverlayBytes =
      resolveOverlay r1 env.policy.doc env.overlays
        env.policy.doc.defaults.maxOverlayBytes := by
    cases r1; rfl
  have hb : hasTeacherBoost { r1 with overrides := some (.obj ov2) } =
      hasTeacherBoost r1 := by
    unfold hasTeacherBoost
    rw [h1]
    simp only [join_map_some]
    rw [hsame "teacher_boost" (by decide)]
  have hfz : freezeKeyFromRequest { r1 with overrides := some (.obj ov2) }
        env.policy.doc.revision =
      freezeKeyFromRequest r1 env.policy.doc.revision := by
    unfold freezeKeyFromRequest
    rw [h1]
    simp only [join_map_some]
    rw [hsame "freeze_key" (by decide)]
  have hsum : extractSummary { r1 with overrides := some (.obj ov2) } =
      extractSummary r1 := by
    unfold extractSummary
    rw [h1]
    simp only [Option.some_bind]
    rw [hsame "canonical_summary" (by decide), hsame "summary" (by decide)]
  have hesc : ∀ inT bst, determineEscalation { r1 with overrides := some (.obj ov2) }
        env.policy.doc env.policy.escalationRegex inT bst =
      determineEscalation r1 env.policy.doc env.policy.escalationRegex inT bst := by
    intro inT bst
    unfold determineEscalation
    rw [h1]
    simp only [join_map_some, hsame "scpi_error_present" (by decide)]
  have hpt1 : planTokenClaims env.sticky env.nowWall r1 = some claims := by
    unfold planTokenClaims
    rw [h1]
    simp only [join_map_some]
    rw [htok]
    simp only [Option.some_bind, JLeaf.asStr]
    rw [hver]
    rfl
  have hpt2 : planTokenClaims env.sticky env.nowWall
      { r1 with overrides := some (.obj ov2) } = none := by
    unfold planTokenClaims
    simp only [join_map_some]
    rw [hnone]
    rfl
  have hidx0 : planTokenModelIdx env.catalog (some claims) = 0 := by
    unfold planTokenModelIdx
    rcases hidx with h | h <;> simp [h]
  have hidx1 : planTokenModelIdx env.catalog none = 0 := rfl
  unfold deriveRequestKey
  dsimp only
  rw [hcaps, hreg, hcu, hov, hb, hfz, hsum, hesc, hpt1, hpt2, hidx0, hidx1]
  rcases ha : alget env.policy.aliasMap r1.aliasName with _ | rule
  · rfl
  · dsimp only
    rcases ho : resolveOverlay r1 env.policy.doc env.overlays
        env.policy.doc.defaults.maxOverlayBytes with e | po
    · rfl
    · rfl

/-- Witness for C10: the fixture token resolves to catalog index 0, and the
fingerprint matches the token-less request's fingerprint. -/
theorem c10_witness :
    (deriveRequestKey tEnv { tReq with overrides := some (.obj tOv1) }).map
        (fun d => d.2.cacheKey) =
      (deriveRequestKey tEnv { tReq with overrides := some (.obj []) }).map
        (fun d => d.2.cacheKey) :=
  c10_unknown_sticky_model_shares_fingerprint tEnv
    { tReq with overrides := some (.obj tOv1) } tOv1 [] tTokenA wClaimsA
    rfl rfl (by rfl) (Or.inr (by rfl)) rfl
    (by
      intro k hk
      have hfind : (List.find? (fun p => p.1 = k) tOv1) = none := by
        simp [tOv1, Ne.symm hk]
      simp [Json.get, hfind])

/-- C1: when plan() returns a freshly scored plan (cache-miss path), the
primary upstream names a model of the catalog snapshot taken at the start
of the call, that model is not offline, and its compiled context_tokens
covers in_tokens (prompt estimate, default 512) plus out_tokens (request
estimate, else the policy default, 0 mapping to 256). -/
theorem c1_primary_is_eligible (env : PlanEnv) (req : RouteRequest)
    (result : PlanResult) (h : plan env req = .ok result)
    (hm : result.outcome.cacheStatus = .miss) :
    ∃ model ∈ env.catalog.models,
      model.id = result.outcome.plan.upstream.modelId
      ∧ model.status ≠ .offline
      ∧ (req.estimates.bind (·.promptTokens)).getD 512
          + (if (req.estimates.bind (·.maxOutputTokens)).getD
                env.policy.doc.defaults.maxOutputTokens = 0 then 256
            else (req.estimates.bind (·.maxOutputTokens)).getD
                env.policy.doc.defaults.maxOutputTokens)
          ≤ model.contextTokens := by
  obtain ⟨aliasRule, parts, forced, candidates, best, blueprint, issued, reason,
    hd, hsc, hbm, hup, hst, hat, hins⟩ := plan_miss_structure env req result h hm
  obtain ⟨model, hmem, hev⟩ := scoreCandidates_mem _ _ _ hsc hbm
  obtain ⟨hcm, hoff, hctx⟩ := evalCandidate_props _ _ _ hev
  have hframe := attachStickiness_frame _ _ _ _ _ _ _ _ hat
  have hupstream : result.outcome.plan.upstream = blueprint.upstream :=
    congrArg (fun p => p.upstream) hframe
  have htok := deriveRequestKey_tokens env req aliasRule parts hd
  refine ⟨model, hmem, ?_, hoff, ?_⟩
  · rw [hupstream, hup, hcm]
  · rw [← htok.1, ← htok.2]
    exact hctx

/-- Witness for C1: the fixture plan call is a cache miss whose primary is
an eligible catalog model. -/
theorem c1_witness :
    ∃ model ∈ tEnv.catalog.models,
      model.id = tPlanResult.outcome.plan.upstream.modelId
      ∧ model.status ≠ .offline
      ∧ (tReq.estimates.bind (·.promptTokens)).getD 512
          + (if (tReq.estimates.bind (·.maxOutputTokens)).getD
                tEnv.policy.doc.defaults.maxOutputTokens = 0 then 256
            else (tReq.estimates.bind (·.maxOutputTokens)).getD
                tEnv.policy.doc.defaults.maxOutputTokens)
          ≤ model.contextTokens :=
  c1_primary_is_eligible tEnv tReq tPlanResult (by rfl) (by rfl)

/-- C9: on a cache-miss plan, the blueprint inserted into the plan cache
carries the empty stickiness block, and the response plan differs from it
in no field besides stickiness and cache.valid_until. -/
theorem c9_stickiness_response_only (env : PlanEnv) (req : RouteRequest)
    (result : PlanResult) (h : plan env req = .ok result)
    (hm : result.outcome.cacheStatus = .miss) :
    ∃ key entry, result.inserted = some (key, entry)
      ∧ entry.plan.stickiness = Stickiness.empty
      ∧ result.outcome.plan =
          { entry.plan with
              stickiness := result.outcome.plan.stickiness
              cache := { entry.plan.cache with
                validUntil := result.outcome.plan.cache.validUntil } } := by
  obtain ⟨aliasRule, parts, forced, candidates, best, blueprint, issued, reason,
    hd, hsc, hbm, hup, hst, hat, hins⟩ := plan_miss_structure env req result h hm
  exact ⟨parts.cacheKey, _, hins, hst, attachStickiness_frame _ _ _ _ _ _ _ _ hat⟩

/-- Witness for C9: the fixture plan call inserts a blueprint with empty
stickiness that matches the response plan on every other field. -/
theorem c9_witness :
    ∃ key entry, tPlanResult.inserted = some (key, entry)
      ∧ entry.plan.stickiness = Stickiness.empty
      ∧ tPlanResult.outcome.plan =
          { entry.plan with
              stickiness := tPlanResult.outcome.plan.stickiness
              cache := { entry.plan.cache with
                validUntil := tPlanResult.outcome.plan.cache.validUntil } } :=
  c9_stickiness_response_only tEnv tReq tPlanResult (by rfl) (by rfl)

/-- C2: determine_escalation is exactly the first-match cascade the spec
describes: teacher_boost (tier teacher_boost_tier or fallback_tier when
unset, reason teacher_boost), then in_tokens > token_len_over (reason
complexity), then the uncertainty regex matching conversation.summary
(reason uncertainty), then policy scpi_error_present together with the
request override (reason policy_lock), else nothing forced. -/
theorem c2_escalation_precedence (req : RouteRequest) (policy : PolicyDocument)
    (regex : Option (String → Bool)) (inTokens : Nat) (teacherBoost : Bool) :
    determineEscalation req policy regex inTokens teacherBoost =
      escalationSpec req policy regex inTokens teacherBoost := by
  unfold determineEscalation escalationSpec
  cases teacherBoost
  case true =>
    simp only [if_true]
    cases policy.escalations.teacherBoostTier <;> simp [Option.orElse, Option.getD]
  case false =>
    simp only [Bool.false_eq_true, if_false]
    rcases hL : policy.escalations.tokenLenOver with _ | limit <;>
      rcases hre : regex with _ | re <;>
        rcases hs : req.conversation.bind (fun conv => conv.summary) with _ | summary <;>
          simp_all only [Option.map_some, Option.map_none, Option.getD_some,
            Option.getD_none] <;>
        split_ifs <;> (try simp_all) <;> omega
